import Mathlib

/-!
# Klondike solitaire (`src/App.js`): a shallow embedding of the rules engine

The React component `App` keeps six pieces of state (`tableau`, `stock`,
`waste`, `foundations`, `selection`, `undoState`) and a set of event handlers
that read the state of the current render and enqueue the next one.  A handler
is embedded as a function from the state it reads to the state it enqueues.
A handler that dereferences `undefined` throws a `TypeError` in JavaScript; it
is embedded as a function to `Option State`, `none` standing for the throw.
Every throw in the source happens before the first `setX` call, so a throwing
handler leaves the component state as it was.
-/

set_option autoImplicit false

namespace Klondike

/-! ## Cards -/

/-- The four strings of `suits` (App.js line 3). -/
inductive Suit
  | hearts
  | diamonds
  | clubs
  | spades
  deriving DecidableEq, Repr

/-- The thirteen strings of `ranks` (App.js line 4): "A", "2", ..., "10", "J", "Q", "K". -/
inductive Rank
  | A
  | r2
  | r3
  | r4
  | r5
  | r6
  | r7
  | r8
  | r9
  | r10
  | J
  | Q
  | K
  deriving DecidableEq, Repr

/-- The array `suits`, in source order. -/
def suits : List Suit := [.hearts, .diamonds, .clubs, .spades]

/-- The array `ranks`, in source order. -/
def ranks : List Rank :=
  [.A, .r2, .r3, .r4, .r5, .r6, .r7, .r8, .r9, .r10, .J, .Q, .K]

/-- A card object `{ suit, rank, faceUp }`. -/
structure Card where
  suit : Suit
  rank : Rank
  faceUp : Bool
  deriving DecidableEq, Repr

/-- The expression `ranks.indexOf(card.rank)`. -/
def rankIndex (r : Rank) : Nat := ranks.indexOf r

/-- The identity of a card: its suit and rank, whatever side is up. -/
def cardKey (c : Card) : Suit × Rank := (c.suit, c.rank)

/-- The deck built by the two nested loops of `generateDeck` (lines 7-12), before the sort. -/
def canonicalDeck : List Card :=
  suits.flatMap fun suit => ranks.map fun rank => { suit := suit, rank := rank, faceUp := false }

/-- The 52 (suit, rank) pairs of a standard deck. -/
def deckKeys : List (Suit × Rank) := canonicalDeck.map cardKey

/-- The function `generateDeck` (lines 6-14). `sort` stands for `Array.prototype.sort` called
with the comparator `() => Math.random() - 0.5`: the engine's algorithm and the random draws are
not in the source, so the rearrangement they produce is a parameter. -/
def generateDeck (sort : List Card → List Card) : List Card := sort canonicalDeck

/-- One insertion of a comparison sort whose comparator ignores its arguments: `cmp k` tells
whether the `k`-th call of the comparator returned a negative number; the second component
counts the calls made so far. -/
def randomInsert (cmp : Nat → Bool) (x : Card) : List Card → Nat → List Card × Nat
  | [], k => ([x], k)
  | y :: ys, k =>
    if cmp k then (x :: y :: ys, k + 1)
    else
      let r := randomInsert cmp x ys (k + 1)
      (y :: r.1, r.2)

/-- An insertion sort driven by the outcomes `cmp` of the comparator calls: one rearrangement
the engine may produce for each sequence of random draws. -/
def randomSort (cmp : Nat → Bool) : List Card → Nat → List Card × Nat
  | [], k => ([], k)
  | x :: xs, k =>
    let r := randomSort cmp xs k
    randomInsert cmp x r.1 r.2

/-- The function `isNextFoundationCard` (lines 16-19). -/
def isNextFoundationCard (card : Card) (foundationPile : List Card) : Bool :=
  let expectedRankIndex := foundationPile.length
  rankIndex card.rank == expectedRankIndex

/-! ## Component state -/

/-- The object held by `foundations`: one pile per suit key. -/
structure Foundations where
  hearts : List Card
  diamonds : List Card
  clubs : List Card
  spades : List Card
  deriving DecidableEq, Repr

/-- The lookup `foundations[suit]`. -/
def Foundations.get (f : Foundations) : Suit → List Card
  | .hearts => f.hearts
  | .diamonds => f.diamonds
  | .clubs => f.clubs
  | .spades => f.spades

/-- The object `{ ...foundations, [suit]: pile }`. -/
def Foundations.put (f : Foundations) (suit : Suit) (pile : List Card) : Foundations :=
  match suit with
  | .hearts => { f with hearts := pile }
  | .diamonds => { f with diamonds := pile }
  | .clubs => { f with clubs := pile }
  | .spades => { f with spades := pile }

/-- The initial value of `foundations` (lines 25-30). -/
def Foundations.empty : Foundations :=
  { hearts := [], diamonds := [], clubs := [], spades := [] }

/-- The values given to `setSelection` by the three `onDragStart` handlers. The `card` field
of the waste selection is never read and is left out. -/
inductive Selection
  | waste
  | tableau (pileIdx cardIdx : Nat)
  | foundation (suit : Suit)
  deriving DecidableEq, Repr

/-- The four zones of a game, which is also the shape of the object stored by `saveUndoState`. -/
structure Game where
  tableau : List (List Card)
  stock : List Card
  waste : List Card
  foundations : Foundations
  deriving DecidableEq, Repr

/-- The state of the component `App` (lines 22-33). `hasWon` is recomputed from
`foundations` by an effect and is the function `hasWon` below. -/
structure State where
  tableau : List (List Card)
  stock : List Card
  waste : List Card
  foundations : Foundations
  selection : Option Selection
  undoState : Option Game
  deriving DecidableEq, Repr

/-- The four zones of the current state. -/
def State.game (s : State) : Game :=
  { tableau := s.tableau, stock := s.stock, waste := s.waste, foundations := s.foundations }

/-- The state of the first render, before the deal effect has run. -/
def State.initial : State :=
  { tableau := [], stock := [], waste := [], foundations := Foundations.empty,
    selection := none, undoState := none }

/-- The effect of lines 47-50: every foundation pile has length 13. -/
def hasWon (f : Foundations) : Bool :=
  [f.hearts, f.diamonds, f.clubs, f.spades].all fun pile => pile.length == 13

/-! ## The deal -/

/-- The loop of lines 38-42 from counter `i` on, with `n` rounds left: `splice(0, i + 1)` takes
the pile off the front of the deck, the last card of the pile is turned up (a `TypeError` when
the pile is empty), and the pile is pushed onto `newTableau`. -/
def dealLoop : Nat → Nat → List Card → List (List Card) → Option (List (List Card) × List Card)
  | 0, _, deck, newTableau => some (newTableau, deck)
  | n + 1, i, deck, newTableau =>
    let pile := deck.take (i + 1)
    match pile.getLast? with
    | none => none
    | some last =>
      dealLoop n (i + 1) (deck.drop (i + 1))
        (newTableau ++ [pile.dropLast ++ [{ last with faceUp := true }]])

/-- The deal effect (lines 35-45) on the deck returned by `generateDeck`. -/
def deal (deck : List Card) : Option State :=
  match dealLoop 7 0 deck [] with
  | none => none
  | some (newTableau, rest) => some { State.initial with tableau := newTableau, stock := rest }

/-! ## Undo -/

/-- The function `saveUndoState` (lines 52-59). The JSON round trip is a deep copy, which is
the identity on values. -/
def saveUndoState (s : State) : State :=
  { s with undoState := some { tableau := s.tableau, stock := s.stock, waste := s.waste,
                               foundations := s.foundations } }

/-- The function `handleUndo` (lines 61-69). -/
def handleUndo (s : State) : State :=
  match s.undoState with
  | some u =>
    { s with tableau := u.tableau, stock := u.stock, waste := u.waste,
             foundations := u.foundations, undoState := none }
  | none => s

/-! ## Stock -/

/-- The function `onStockClick` (lines 71-82). `getLast?` is `none` exactly when
`stock.length === 0`, and is `stock[stock.length - 1]` otherwise. -/
def onStockClick (s : State) : State :=
  let s1 := saveUndoState s
  match s.stock.getLast? with
  | none =>
    { s1 with stock := (s.waste.map fun card => { card with faceUp := false }).reverse,
              waste := [], selection := none }
  | some card =>
    { s1 with stock := s.stock.dropLast,
              waste := s.waste ++ [{ card with faceUp := true }], selection := none }

/-! ## Tableau rule -/

/-- The function `canPlaceOnTableau` (lines 84-93). `targetCard` is `none` for `null`.
`isTargetRed` is `null` for a `null` target; rank positions are integers, so that
`targetRank - 1` is `-1` for an Ace and `-2` for `null`. -/
def canPlaceOnTableau (card : Card) (targetCard : Option Card) : Bool :=
  let isRed : Bool := card.suit == Suit.hearts || card.suit == Suit.diamonds
  let isTargetRed : Option Bool :=
    targetCard.map fun t => t.suit == Suit.hearts || t.suit == Suit.diamonds
  let rankOrder : Int := rankIndex card.rank
  let targetRank : Int :=
    match targetCard with
    | some t => rankIndex t.rank
    | none => -1
  (targetCard.isNone && card.rank == Rank.K) ||
    (targetCard.isSome && (some isRed != isTargetRed) && rankOrder == targetRank - 1)

/-- The reveal of lines 106-109 and 152-154: when the pile is not empty and its last card is
face-down, the last slot is overwritten with a face-up copy. -/
def revealTop (pile : List Card) : List Card :=
  match pile.getLast? with
  | none => pile
  | some topCard =>
    if !topCard.faceUp then pile.dropLast ++ [{ topCard with faceUp := true }] else pile

/-- The function `handleTableauDrop` (lines 95-117). `none` is the `TypeError` of
`sourcePile.slice` or `targetPile.length` on a missing pile, or of `card.suit` on
`movingCards[0]` when the slice is empty. -/
def handleTableauDrop (s : State) (sourcePileIdx sourceCardIdx targetPileIdx : Nat) :
    Option State :=
  if sourcePileIdx = targetPileIdx then some s
  else
    match s.tableau[sourcePileIdx]?, s.tableau[targetPileIdx]? with
    | some sourcePile, some targetPile =>
      let movingCards := sourcePile.drop sourceCardIdx
      let targetTopCard := targetPile.getLast?
      match movingCards.head? with
      | none => none
      | some first =>
        if canPlaceOnTableau first targetTopCard then
          let s1 := saveUndoState s
          let newSourcePile := revealTop (sourcePile.take sourceCardIdx)
          let newTargetPile := targetPile ++ movingCards
          let newTableau :=
            (s.tableau.set sourcePileIdx newSourcePile).set targetPileIdx newTargetPile
          some { s1 with tableau := newTableau }
        else some s
    | _, _ => none

/-- The function `handleWasteDrop` (lines 119-133). `none` is the `TypeError` of
`targetPile.length` on a missing pile. -/
def handleWasteDrop (s : State) (targetPileIdx : Nat) : Option State :=
  match s.waste.getLast? with
  | none => some s
  | some card =>
    match s.tableau[targetPileIdx]? with
    | none => none
    | some targetPile =>
      let targetTopCard := targetPile.getLast?
      if canPlaceOnTableau card targetTopCard then
        let s1 := saveUndoState s
        let newTargetPile := targetPile ++ [card]
        let newWaste := s.waste.dropLast
        some { s1 with
          tableau := s.tableau.mapIdx fun i p => if i = targetPileIdx then newTargetPile else p,
          waste := newWaste }
      else some s

/-- The function `handleFoundationDrop` (lines 135-160). `none` is the `TypeError` of
`sourcePile[cardIdx]` on a missing pile or of `card.suit` on a missing card. A waste
selection with an empty waste falls through to the `else if`, whose test is false. -/
def handleFoundationDrop (s : State) (suit : Suit) : Option State :=
  match s.selection with
  | some Selection.waste =>
    match s.waste.getLast? with
    | none => some s
    | some card =>
      if card.suit == suit && isNextFoundationCard card (s.foundations.get suit) then
        let s1 := saveUndoState s
        some { s1 with
          foundations := s.foundations.put suit (s.foundations.get suit ++ [card]),
          waste := s.waste.dropLast }
      else some s
  | some (Selection.tableau pileIdx cardIdx) =>
    match s.tableau[pileIdx]? with
    | none => none
    | some sourcePile =>
      match sourcePile[cardIdx]? with
      | none => none
      | some card =>
        if card.suit == suit && cardIdx == sourcePile.length - 1 &&
            isNextFoundationCard card (s.foundations.get suit) then
          let s1 := saveUndoState s
          let newFoundations := s.foundations.put suit (s.foundations.get suit ++ [card])
          let newPile := revealTop (sourcePile.take cardIdx)
          let newTableau := s.tableau.mapIdx fun i p => if i = pileIdx then newPile else p
          some { s1 with foundations := newFoundations, tableau := newTableau }
        else some s
  | _ => some s

/-- The function `handleFoundationToTableauDrop` (lines 163-182). `none` is the `TypeError`
of `targetPile.length` on a missing pile. -/
def handleFoundationToTableauDrop (s : State) (suit : Suit) (targetPileIdx : Nat) :
    Option State :=
  let foundationPile := s.foundations.get suit
  match foundationPile.getLast? with
  | none => some s
  | some card =>
    match s.tableau[targetPileIdx]? with
    | none => none
    | some targetPile =>
      let targetTopCard := targetPile.getLast?
      if canPlaceOnTableau card targetTopCard then
        let s1 := saveUndoState s
        let newFoundationPile := foundationPile.take (foundationPile.length - 1)
        let newTargetPile := targetPile ++ [{ card with faceUp := true }]
        some { s1 with
          foundations := s.foundations.put suit newFoundationPile,
          tableau := s.tableau.mapIdx fun i p => if i = targetPileIdx then newTargetPile else p }
      else some s

/-- The two strings returned by `getCardColor`. -/
inductive Color
  | red
  | black
  deriving DecidableEq, Repr

/-- The arrow function `getCardColor` (line 184): hearts and diamonds are red, the rest black. -/
def getCardColor (suit : Suit) : Color :=
  if suit == Suit.hearts || suit == Suit.diamonds then Color.red else Color.black

/-! ## Move requests -/

/-- The requests the component receives: the click on the stock, the three kinds of drop on a
tableau pile, the drop on a foundation, the undo button, and a change of `selection`
(`onDragStart`, or the `setSelection(null)` that follows a drop). -/
inductive Move
  | stockClick
  | tableauDrop (sourcePileIdx sourceCardIdx targetPileIdx : Nat)
  | wasteDrop (targetPileIdx : Nat)
  | foundationDrop (suit : Suit)
  | foundationToTableauDrop (suit : Suit) (targetPileIdx : Nat)
  | undo
  | select (sel : Option Selection)
  deriving DecidableEq, Repr

/-- One request applied to the state. A handler that throws has enqueued no update, so the
state stays as it was. -/
def step (s : State) : Move → State
  | .stockClick => onStockClick s
  | .tableauDrop a k b => (handleTableauDrop s a k b).getD s
  | .wasteDrop b => (handleWasteDrop s b).getD s
  | .foundationDrop suit => (handleFoundationDrop s suit).getD s
  | .foundationToTableauDrop suit b => (handleFoundationToTableauDrop s suit b).getD s
  | .undo => handleUndo s
  | .select sel => { s with selection := sel }

/-- A finite sequence of requests, applied in order. -/
def run (s : State) (ms : List Move) : State := ms.foldl step s

/-! ## Card census -/

/-- Every card of a game, zone by zone. -/
def Game.cards (g : Game) : List Card :=
  g.tableau.flatten ++ g.stock ++ g.waste ++ g.foundations.hearts ++ g.foundations.diamonds ++
    g.foundations.clubs ++ g.foundations.spades

/-- The (suit, rank) pairs of every card of a game. -/
def Game.keys (g : Game) : List (Suit × Rank) := g.cards.map cardKey

/-- The zones hold exactly one standard deck: each of the 52 pairs once. -/
def Game.holdsDeck (g : Game) : Prop := g.keys.Perm deckKeys

/-! ## Counting cards -/

/-- How many cards of a list have the suit and rank `a`. -/
def keyCount (a : Suit × Rank) (cards : List Card) : Nat :=
  @List.count (Suit × Rank) instBEqOfDecidableEq a (cards.map cardKey)

/-- How many cards of the tableau have the suit and rank `a`. -/
def tableauCount (a : Suit × Rank) (t : List (List Card)) : Nat := (t.map (keyCount a)).sum

/-- How many cards of the four foundations have the suit and rank `a`. -/
def Foundations.count (f : Foundations) (a : Suit × Rank) : Nat :=
  keyCount a f.hearts + keyCount a f.diamonds + keyCount a f.clubs + keyCount a f.spades

/-- How many cards of the four zones have the suit and rank `a`. -/
def Game.count (g : Game) (a : Suit × Rank) : Nat :=
  tableauCount a g.tableau + keyCount a g.stock + keyCount a g.waste + g.foundations.count a

/-! ## Invariants -/

/-- The zones of the state, and those of the stored snapshot if there is one, each hold
exactly one standard deck. -/
def State.holdsDeck (s : State) : Prop :=
  s.game.holdsDeck ∧ ∀ u, s.undoState = some u → u.holdsDeck

/-- Every foundation pile holds, at index `i`, a card of its own suit with rank `ranks[i]`. -/
def Foundations.ordered (f : Foundations) : Prop :=
  ∀ (suit : Suit) (i : Nat) (c : Card),
    (f.get suit)[i]? = some c → c.suit = suit ∧ ranks[i]? = some c.rank

/-- The foundations of the state, and those of the stored snapshot if there is one, are
ordered. -/
def State.foundationsOrdered (s : State) : Prop :=
  s.foundations.ordered ∧ ∀ u, s.undoState = some u → u.foundations.ordered

/-- Every stock card is face-down and every waste card is face-up. -/
def Game.oriented (g : Game) : Prop :=
  (∀ c ∈ g.stock, c.faceUp = false) ∧ (∀ c ∈ g.waste, c.faceUp = true)

/-- In a pile, every card above a face-up card is face-up: the face-up cards are one run at
the top. -/
def faceUpRun (pile : List Card) : Prop :=
  pile.Pairwise fun below above => below.faceUp = true → above.faceUp = true

/-- Every pile of the tableau has its face-up cards in one run at the top. -/
def tableauRuns (t : List (List Card)) : Prop := ∀ pile ∈ t, faceUpRun pile

/-! ## Example states -/

/-- The deal of the unshuffled deck. -/
def exDealt : State := (deal canonicalDeck).getD State.initial

/-- A two-pile tableau: a face-down 5 of hearts under the 7 of clubs, and the 8 of diamonds. -/
def exTableau : State :=
  { tableau := [[⟨Suit.hearts, Rank.r5, false⟩, ⟨Suit.clubs, Rank.r7, true⟩],
                [⟨Suit.diamonds, Rank.r8, true⟩]],
    stock := [], waste := [], foundations := Foundations.empty,
    selection := some (Selection.tableau 0 1), undoState := none }

/-- The Ace of hearts on the waste, selected, with empty foundations. -/
def exWasteAce : State :=
  { tableau := [[]], stock := [], waste := [⟨Suit.hearts, Rank.A, true⟩],
    foundations := Foundations.empty, selection := some Selection.waste, undoState := none }

/-- The 2 of hearts on the waste, selected, with empty foundations. -/
def exWasteTwo : State :=
  { tableau := [[]], stock := [], waste := [⟨Suit.hearts, Rank.r2, true⟩],
    foundations := Foundations.empty, selection := some Selection.waste, undoState := none }

/-- A face-down 5 of clubs under the Ace of hearts in pile 0, the Ace selected. -/
def exTableauAce : State :=
  { tableau := [[⟨Suit.clubs, Rank.r5, false⟩, ⟨Suit.hearts, Rank.A, true⟩]],
    stock := [], waste := [], foundations := Foundations.empty,
    selection := some (Selection.tableau 0 1), undoState := none }

/-- A stock of two face-down cards over a waste of one, with a stale selection. -/
def exStock : State :=
  { tableau := [[⟨Suit.spades, Rank.K, true⟩]],
    stock := [⟨Suit.clubs, Rank.r3, false⟩, ⟨Suit.hearts, Rank.Q, false⟩],
    waste := [⟨Suit.diamonds, Rank.r9, true⟩],
    foundations := Foundations.empty, selection := some Selection.waste, undoState := none }

/-- An empty stock and five face-up cards on the waste. -/
def exRecycle : State :=
  { tableau := [[⟨Suit.spades, Rank.K, true⟩]],
    stock := [],
    waste := [⟨Suit.diamonds, Rank.r9, true⟩, ⟨Suit.clubs, Rank.r3, true⟩,
              ⟨Suit.hearts, Rank.Q, true⟩, ⟨Suit.spades, Rank.A, true⟩,
              ⟨Suit.hearts, Rank.r10, true⟩],
    foundations := Foundations.empty, selection := none, undoState := none }

/-- Three full foundations and twelve spades. -/
def exAlmostWon : Foundations :=
  { hearts := ranks.map fun r => ⟨Suit.hearts, r, true⟩,
    diamonds := ranks.map fun r => ⟨Suit.diamonds, r, true⟩,
    clubs := ranks.map fun r => ⟨Suit.clubs, r, true⟩,
    spades := (ranks.take 12).map fun r => ⟨Suit.spades, r, true⟩ }

/-- Four full foundations. -/
def exWon : Foundations :=
  { exAlmostWon with spades := ranks.map fun r => ⟨Suit.spades, r, true⟩ }

/-- The Queen of hearts on the waste over a tableau whose pile 1 ends in the King of spades. -/
def exWasteQueen : State :=
  { tableau := [[⟨Suit.clubs, Rank.r4, true⟩], [⟨Suit.spades, Rank.K, true⟩]],
    stock := [⟨Suit.clubs, Rank.r3, false⟩],
    waste := [⟨Suit.diamonds, Rank.r9, true⟩, ⟨Suit.hearts, Rank.Q, true⟩],
    foundations := Foundations.empty, selection := some Selection.waste, undoState := none }

/-- The Ace and 2 of hearts on their foundation over a tableau whose pile 0 ends in the 3 of
spades. -/
def exFoundationTwo : State :=
  { tableau := [[⟨Suit.diamonds, Rank.r7, false⟩, ⟨Suit.spades, Rank.r3, true⟩], []],
    stock := [], waste := [],
    foundations :=
      { Foundations.empty with
        hearts := [⟨Suit.hearts, Rank.A, true⟩, ⟨Suit.hearts, Rank.r2, true⟩] },
    selection := some (Selection.foundation Suit.hearts), undoState := none }

/-- A seven-pile tableau whose pile 0 is empty, with that empty pile selected. -/
def exEmptySource : State :=
  { tableau := [[], [⟨Suit.hearts, Rank.Q, true⟩], [⟨Suit.spades, Rank.K, true⟩], [], [], [], []],
    stock := [⟨Suit.clubs, Rank.r3, false⟩], waste := [],
    foundations := Foundations.empty,
    selection := some (Selection.tableau 0 0), undoState := none }

/-- A state with an empty stock, the Queen of hearts alone on the waste, and the King of
spades on pile 0. -/
def exLastWasteCard : State :=
  { tableau := [[⟨Suit.spades, Rank.K, true⟩], [], [], [], [], [], []],
    stock := [], waste := [⟨Suit.hearts, Rank.Q, true⟩],
    foundations := Foundations.empty, selection := some Selection.waste, undoState := none }

/-- The zones before the Queen of hearts went from the waste onto the King of spades. -/
def exBeforeLastMove : Game := exLastWasteCard.game

/-- The state after that move: stock and waste are both empty, and the snapshot holds the
zones before the move. -/
def exBothEmpty : State :=
  { tableau := [[⟨Suit.spades, Rank.K, true⟩, ⟨Suit.hearts, Rank.Q, true⟩], [], [], [], [], [], []],
    stock := [], waste := [],
    foundations := Foundations.empty,
    selection := none, undoState := some exBeforeLastMove }

/-- A face-down 5 of hearts under the 4 of spades in pile 0, and the 6 of spades in pile 1. -/
def exFaceDownDrag : State :=
  { tableau := [[⟨Suit.hearts, Rank.r5, false⟩, ⟨Suit.spades, Rank.r4, true⟩],
                [⟨Suit.spades, Rank.r6, true⟩]],
    stock := [], waste := [], foundations := Foundations.empty,
    selection := some (Selection.tableau 0 0), undoState := none }

/-- A face-down Queen of hearts on the waste, and the King of spades in pile 0. -/
def exFaceDownWaste : State :=
  { tableau := [[⟨Suit.spades, Rank.K, true⟩]],
    stock := [], waste := [⟨Suit.hearts, Rank.Q, false⟩], foundations := Foundations.empty,
    selection := some Selection.waste, undoState := none }

/-! # Theorems -/

/-! ## The tableau rule -/

theorem suit_beq (a b : Suit) : (a == b) = decide (a = b) := by
  cases a <;> cases b <;> rfl

theorem rank_beq (a b : Rank) : (a == b) = decide (a = b) := by
  cases a <;> cases b <;> rfl

theorem int_beq (a b : Int) : (a == b) = decide (a = b) := by
  rw [Bool.eq_iff_iff]; simp

theorem nat_beq (a b : Nat) : (a == b) = decide (a = b) := by
  rw [Bool.eq_iff_iff]; simp

theorem canPlaceOnTableau_none (card : Card) :
    canPlaceOnTableau card none = decide (card.rank = Rank.K) := by
  simp [canPlaceOnTableau, rank_beq]

theorem canPlaceOnTableau_some (card t : Card) :
    canPlaceOnTableau card (some t) =
      (decide (getCardColor card.suit ≠ getCardColor t.suit) &&
        decide ((rankIndex card.rank : Int) = (rankIndex t.rank : Int) - 1)) := by
  obtain ⟨cs, cr, cf⟩ := card
  obtain ⟨ts, tr, tf⟩ := t
  have e1 : (some true != some false) = true := by decide
  have e2 : (some false != some true) = true := by decide
  cases cs <;> cases ts <;> simp [canPlaceOnTableau, getCardColor, suit_beq, int_beq, e1, e2]

/-- C2: `canPlaceOnTableau card target` is true exactly when the target is `null` and the card
is a King, or the target is a card of the other colour whose rank position is one more than the
card's; 7 of clubs goes on 8 of diamonds, not on a red 7 nor on 8 of spades; a King goes on an
empty pile and a Queen does not. -/
theorem canPlaceOnTableau_iff :
    (∀ (card : Card) (target : Option Card),
      canPlaceOnTableau card target = true ↔
        (target = none ∧ card.rank = Rank.K) ∨
        (∃ t, target = some t ∧ getCardColor card.suit ≠ getCardColor t.suit ∧
          (rankIndex card.rank : Int) = (rankIndex t.rank : Int) - 1)) ∧
    (∀ f g, canPlaceOnTableau ⟨Suit.clubs, Rank.r7, f⟩ (some ⟨Suit.diamonds, Rank.r8, g⟩) = true) ∧
    (∀ f g, canPlaceOnTableau ⟨Suit.clubs, Rank.r7, f⟩ (some ⟨Suit.hearts, Rank.r7, g⟩) = false) ∧
    (∀ f g, canPlaceOnTableau ⟨Suit.clubs, Rank.r7, f⟩ (some ⟨Suit.diamonds, Rank.r7, g⟩) = false) ∧
    (∀ f g, canPlaceOnTableau ⟨Suit.clubs, Rank.r7, f⟩ (some ⟨Suit.spades, Rank.r8, g⟩) = false) ∧
    (∀ s f, canPlaceOnTableau ⟨s, Rank.K, f⟩ none = true) ∧
    (∀ s f, canPlaceOnTableau ⟨s, Rank.Q, f⟩ none = false) := by
  refine ⟨?_, ?_, ?_, ?_, ?_, ?_, ?_⟩
  · intro card target
    obtain ⟨cs, cr, cf⟩ := card
    cases target with
    | none => simp [canPlaceOnTableau_none]
    | some t => simp [canPlaceOnTableau_some]
  · intro f g; rfl
  · intro f g; rfl
  · intro f g; rfl
  · intro f g; rfl
  · intro s f; cases s <;> rfl
  · intro s f; cases s <;> rfl

/-! ## Lists: replacing one pile, turning the top card -/

theorem mapIdx_replace {α : Type} (l : List α) (j : Nat) (x : α) :
    (l.mapIdx fun i p => if i = j then x else p) = l.set j x := by
  apply List.ext_getElem?
  intro i
  rw [List.getElem?_mapIdx, List.getElem?_set]
  by_cases hij : j = i
  · subst hij
    cases h : l[j]? with
    | none =>
      have : ¬ j < l.length := by
        intro hlt
        rw [List.getElem?_eq_getElem hlt] at h
        cases h
      simp [this]
    | some a =>
      have : j < l.length := by
        by_contra hge
        rw [List.getElem?_eq_none (by omega)] at h
        cases h
      simp [this]
  · have hji : ¬ i = j := fun e => hij e.symm
    cases h : l[i]? <;> simp [hij, hji]

theorem revealTop_nil : revealTop [] = [] := rfl

theorem revealTop_concat (q : List Card) (c : Card) :
    revealTop (q ++ [c]) = q ++ [{ c with faceUp := true }] := by
  unfold revealTop
  rw [List.getLast?_concat]
  obtain ⟨cs, cr, cf⟩ := c
  cases cf <;> simp

theorem revealTop_length (p : List Card) : (revealTop p).length = p.length := by
  rcases List.eq_nil_or_concat p with rfl | ⟨q, c, rfl⟩
  · rfl
  · rw [List.concat_eq_append, revealTop_concat]; simp

theorem revealTop_keys (p : List Card) : (revealTop p).map cardKey = p.map cardKey := by
  rcases List.eq_nil_or_concat p with rfl | ⟨q, c, rfl⟩
  · rfl
  · rw [List.concat_eq_append, revealTop_concat]; simp [cardKey]

theorem revealTop_getElem? (p : List Card) (i : Nat) :
    (revealTop p)[i]? =
      (p[i]?).map fun c => if i + 1 = p.length then { c with faceUp := true } else c := by
  rcases List.eq_nil_or_concat p with rfl | ⟨q, c, rfl⟩
  · simp [revealTop_nil]
  · rw [List.concat_eq_append, revealTop_concat]
    by_cases hi : i < q.length
    · rw [List.getElem?_append_left hi, List.getElem?_append_left hi]
      have hne : ¬ i = q.length := by omega
      simp [hne, List.getElem?_eq_getElem hi]
    · by_cases hi2 : i = q.length
      · subst hi2
        simp
      · rw [List.getElem?_eq_none (by simp; omega), List.getElem?_eq_none (by simp; omega)]
        rfl

theorem revealTop_top (p : List Card) (c : Card) (h : (revealTop p).getLast? = some c) :
    c.faceUp = true := by
  rcases List.eq_nil_or_concat p with rfl | ⟨q, d, rfl⟩
  · simp [revealTop_nil] at h
  · rw [List.concat_eq_append, revealTop_concat, List.getLast?_concat] at h
    cases h
    rfl

/-! ## What each handler enqueues -/

theorem handleTableauDrop_same (s : State) (i k : Nat) : handleTableauDrop s i k i = some s := by
  simp [handleTableauDrop]

theorem handleTableauDrop_eq (s : State) (src k tgt : Nat) (sp tp : List Card) (card : Card)
    (hne : src ≠ tgt) (hsrc : s.tableau[src]? = some sp) (htgt : s.tableau[tgt]? = some tp)
    (hk : sp[k]? = some card) :
    handleTableauDrop s src k tgt =
      some (if canPlaceOnTableau card tp.getLast? then
        { saveUndoState s with
          tableau := (s.tableau.set src (revealTop (sp.take k))).set tgt (tp ++ sp.drop k) }
      else s) := by
  simp only [handleTableauDrop, hne, if_false, hsrc, htgt, List.head?_drop, hk]
  split <;> rfl

theorem handleWasteDrop_eq (s : State) (tgt : Nat) (tp : List Card) (card : Card)
    (hw : s.waste.getLast? = some card) (htgt : s.tableau[tgt]? = some tp) :
    handleWasteDrop s tgt =
      some (if canPlaceOnTableau card tp.getLast? then
        { saveUndoState s with
          tableau := s.tableau.set tgt (tp ++ [card]), waste := s.waste.dropLast }
      else s) := by
  simp only [handleWasteDrop, hw, htgt, mapIdx_replace]
  split <;> rfl

theorem handleFoundationDrop_waste_eq (s : State) (suit : Suit) (card : Card)
    (hsel : s.selection = some Selection.waste) (hw : s.waste.getLast? = some card) :
    handleFoundationDrop s suit =
      some (if card.suit = suit ∧ rankIndex card.rank = (s.foundations.get suit).length then
        { saveUndoState s with
          foundations := s.foundations.put suit (s.foundations.get suit ++ [card]),
          waste := s.waste.dropLast }
      else s) := by
  simp only [handleFoundationDrop, hsel, hw, isNextFoundationCard, suit_beq, nat_beq,
    Bool.and_eq_true, decide_eq_true_eq]
  split <;> rfl

theorem handleFoundationDrop_tableau_eq (s : State) (suit : Suit) (p k : Nat)
    (pile : List Card) (card : Card)
    (hsel : s.selection = some (Selection.tableau p k)) (hp : s.tableau[p]? = some pile)
    (hk : pile[k]? = some card) :
    handleFoundationDrop s suit =
      some (if card.suit = suit ∧ k = pile.length - 1 ∧
          rankIndex card.rank = (s.foundations.get suit).length then
        { saveUndoState s with
          foundations := s.foundations.put suit (s.foundations.get suit ++ [card]),
          tableau := s.tableau.set p (revealTop (pile.take k)) }
      else s) := by
  simp only [handleFoundationDrop, hsel, hp, hk, isNextFoundationCard, suit_beq, nat_beq,
    Bool.and_eq_true, decide_eq_true_eq, mapIdx_replace, and_assoc]
  split <;> rfl

theorem handleFoundationToTableauDrop_eq (s : State) (suit : Suit) (tgt : Nat)
    (tp : List Card) (card : Card)
    (hf : (s.foundations.get suit).getLast? = some card) (htgt : s.tableau[tgt]? = some tp) :
    handleFoundationToTableauDrop s suit tgt =
      some (if canPlaceOnTableau card tp.getLast? then
        { saveUndoState s with
          foundations := s.foundations.put suit (s.foundations.get suit).dropLast,
          tableau := s.tableau.set tgt (tp ++ [{ card with faceUp := true }]) }
      else s) := by
  simp only [handleFoundationToTableauDrop, hf, htgt, mapIdx_replace, List.dropLast_eq_take]
  split <;> rfl

theorem getElem?_lt {α : Type} {l : List α} {i : Nat} {a : α} (h : l[i]? = some a) :
    i < l.length := by
  by_contra hge
  rw [List.getElem?_eq_none (by omega)] at h
  cases h

theorem getElem?_set_self_of {α : Type} {l : List α} {i : Nat} {a : α} (x : α)
    (h : l[i]? = some a) : (l.set i x)[i]? = some x := by
  simp [List.getElem?_set, getElem?_lt h]

theorem getElem?_set_other {α : Type} (l : List α) {i j : Nat} (x : α) (h : i ≠ j) :
    (l.set i x)[j]? = l[j]? := by
  simp [List.getElem?_set, h]

/-! ## Tableau to tableau -/

/-- C3: for distinct piles `src` and `tgt` of the tableau and an index `k` inside the source
pile, `handleTableauDrop` returns a state that differs from the old one exactly when
`canPlaceOnTableau` accepts `sourcePile[k]` on the top of the target pile (or `null`); then the
target pile is the old target followed by `sourcePile[k:]`, the source pile has the suits and
ranks of its first `k` cards in order, and the other piles, stock, waste and foundations are as
before; when the check fails, or when `src = tgt`, the state is returned unchanged. -/
theorem handleTableauDrop_spec :
    (∀ (s : State) (src k tgt : Nat) (sp tp : List Card) (card : Card),
      src ≠ tgt → s.tableau[src]? = some sp → s.tableau[tgt]? = some tp → sp[k]? = some card →
      ∃ s', handleTableauDrop s src k tgt = some s' ∧
        (s'.game ≠ s.game ↔ canPlaceOnTableau card tp.getLast? = true) ∧
        (s' ≠ s ↔ canPlaceOnTableau card tp.getLast? = true) ∧
        (canPlaceOnTableau card tp.getLast? = true →
          s'.tableau[tgt]? = some (tp ++ sp.drop k) ∧
          (∃ np, s'.tableau[src]? = some np ∧ np.length = k ∧
            np.map cardKey = (sp.take k).map cardKey) ∧
          s'.tableau.length = s.tableau.length ∧
          (∀ j, j ≠ src → j ≠ tgt → s'.tableau[j]? = s.tableau[j]?) ∧
          s'.stock = s.stock ∧ s'.waste = s.waste ∧ s'.foundations = s.foundations) ∧
        (canPlaceOnTableau card tp.getLast? = false → s' = s)) ∧
    (∀ (s : State) (i k : Nat), handleTableauDrop s i k i = some s) := by
  refine ⟨?_, handleTableauDrop_same⟩
  intro s src k tgt sp tp card hne hsrc htgt hk
  have hklt : k < sp.length := getElem?_lt hk
  have htgt' : ((s.tableau.set src (revealTop (sp.take k))).set tgt (tp ++ sp.drop k))[tgt]? =
      some (tp ++ sp.drop k) := by
    apply getElem?_set_self_of (a := tp)
    rw [getElem?_set_other _ _ hne]
    exact htgt
  rw [handleTableauDrop_eq s src k tgt sp tp card hne hsrc htgt hk]
  cases hc : canPlaceOnTableau card tp.getLast? with
  | false => exact ⟨s, by simp, by simp, by simp, by simp, by simp⟩
  | true =>
    rw [if_pos rfl]
    refine ⟨_, rfl, ?_, ?_, ?_, by simp⟩
    · have hgame : ({ saveUndoState s with
          tableau := (s.tableau.set src (revealTop (sp.take k))).set tgt
            (tp ++ sp.drop k) } : State).game ≠ s.game := by
        intro h
        have h2 := congrArg (fun g => (Game.tableau g)[tgt]?) h
        simp only [State.game] at h2
        rw [htgt', htgt] at h2
        have h3 := congrArg List.length (Option.some.inj h2)
        simp at h3
        omega
      simpa using hgame
    · have hst : ({ saveUndoState s with
          tableau := (s.tableau.set src (revealTop (sp.take k))).set tgt
            (tp ++ sp.drop k) } : State) ≠ s := by
        intro h
        have h2 := congrArg (fun g => (State.tableau g)[tgt]?) h
        simp only at h2
        rw [htgt', htgt] at h2
        have h3 := congrArg List.length (Option.some.inj h2)
        simp at h3
        omega
      simpa using hst
    · intro _
      refine ⟨htgt', ⟨revealTop (sp.take k), ?_, ?_, revealTop_keys _⟩, by simp [saveUndoState],
        ?_, rfl, rfl, rfl⟩
      · show ((s.tableau.set src (revealTop (sp.take k))).set tgt (tp ++ sp.drop k))[src]? = _
        rw [getElem?_set_other _ _ (Ne.symm hne)]
        exact getElem?_set_self_of _ hsrc
      · rw [revealTop_length, List.length_take]; omega
      · intro j hjs hjt
        show ((s.tableau.set src (revealTop (sp.take k))).set tgt (tp ++ sp.drop k))[j]? = _
        rw [getElem?_set_other _ _ (Ne.symm hjt), getElem?_set_other _ _ (Ne.symm hjs)]

/-- The 7 of clubs of `exTableau` dropped on the 8 of diamonds: the hypotheses of the
tableau-to-tableau statement hold and the move is made. -/
theorem handleTableauDrop_spec_witness :
    (0 : Nat) ≠ 1 ∧
    exTableau.tableau[0]? = some [⟨Suit.hearts, Rank.r5, false⟩, ⟨Suit.clubs, Rank.r7, true⟩] ∧
    exTableau.tableau[1]? = some [⟨Suit.diamonds, Rank.r8, true⟩] ∧
    [(⟨Suit.hearts, Rank.r5, false⟩ : Card), ⟨Suit.clubs, Rank.r7, true⟩][1]? =
      some ⟨Suit.clubs, Rank.r7, true⟩ ∧
    ∃ s', handleTableauDrop exTableau 0 1 1 = some s' ∧
      (s'.game ≠ exTableau.game ↔
        canPlaceOnTableau ⟨Suit.clubs, Rank.r7, true⟩
          [(⟨Suit.diamonds, Rank.r8, true⟩ : Card)].getLast? = true) :=
  ⟨by decide, rfl, rfl, rfl,
    let ⟨s', h1, h2, _⟩ :=
      handleTableauDrop_spec.1 exTableau 0 1 1 _ _ _ (by decide) rfl rfl rfl
    ⟨s', h1, h2⟩⟩

/-! ## To a foundation -/

theorem Foundations.get_put_self (f : Foundations) (suit : Suit) (pile : List Card) :
    (f.put suit pile).get suit = pile := by
  cases suit <;> rfl

theorem Foundations.get_put_other (f : Foundations) {suit t : Suit} (pile : List Card)
    (h : t ≠ suit) : (f.put suit pile).get t = f.get t := by
  cases suit <;> cases t <;> first | rfl | exact absurd rfl h

theorem isNextFoundationCard_iff (card : Card) (pile : List Card) :
    isNextFoundationCard card pile = true ↔ rankIndex card.rank = pile.length := by
  simp [isNextFoundationCard, nat_beq]

/-- C4: `handleFoundationDrop suit` moves the selected source card (the top of the waste for a
waste selection, `tableau[pileIdx][cardIdx]` for a tableau selection) exactly when the card has
that suit, its rank position is the length of `foundations[suit]`, and, for a tableau source,
`cardIdx` is the last index of the pile; the card is then appended to `foundations[suit]` and
taken off its source, and otherwise the state is unchanged. The Ace of hearts goes onto an
empty hearts foundation and the 2 of hearts does not. -/
theorem handleFoundationDrop_spec :
    (∀ (s : State) (suit : Suit) (card : Card),
      s.selection = some Selection.waste → s.waste.getLast? = some card →
      ∃ s', handleFoundationDrop s suit = some s' ∧
        (card.suit = suit ∧ isNextFoundationCard card (s.foundations.get suit) = true →
          s'.game ≠ s.game ∧
          s'.foundations.get suit = s.foundations.get suit ++ [card] ∧
          s'.waste = s.waste.dropLast ∧
          (∀ t, t ≠ suit → s'.foundations.get t = s.foundations.get t) ∧
          s'.tableau = s.tableau ∧ s'.stock = s.stock) ∧
        (¬ (card.suit = suit ∧ isNextFoundationCard card (s.foundations.get suit) = true) →
          s' = s)) ∧
    (∀ (s : State) (suit : Suit) (p k : Nat) (pile : List Card) (card : Card),
      s.selection = some (Selection.tableau p k) → s.tableau[p]? = some pile →
      pile[k]? = some card →
      ∃ s', handleFoundationDrop s suit = some s' ∧
        (card.suit = suit ∧ isNextFoundationCard card (s.foundations.get suit) = true ∧
            k + 1 = pile.length →
          s'.game ≠ s.game ∧
          s'.foundations.get suit = s.foundations.get suit ++ [card] ∧
          (∃ np, s'.tableau[p]? = some np ∧ np.length + 1 = pile.length ∧
            np.map cardKey = pile.dropLast.map cardKey) ∧
          s'.tableau.length = s.tableau.length ∧
          (∀ j, j ≠ p → s'.tableau[j]? = s.tableau[j]?) ∧
          (∀ t, t ≠ suit → s'.foundations.get t = s.foundations.get t) ∧
          s'.stock = s.stock ∧ s'.waste = s.waste) ∧
        (¬ (card.suit = suit ∧ isNextFoundationCard card (s.foundations.get suit) = true ∧
            k + 1 = pile.length) →
          s' = s)) ∧
    (∀ (s : State) (suit : Suit),
      (s.selection = none ∨ (∃ t, s.selection = some (Selection.foundation t)) ∨
        (s.selection = some Selection.waste ∧ s.waste = [])) →
      handleFoundationDrop s suit = some s) ∧
    (∀ (s : State) (suit : Suit) (p k : Nat),
      s.selection = some (Selection.tableau p k) → (s.tableau[p]?.bind fun pile => pile[k]?) = none →
      step s (Move.foundationDrop suit) = s) ∧
    (∀ (card : Card) (pile : List Card),
      isNextFoundationCard card pile = true ↔ rankIndex card.rank = pile.length) ∧
    (∀ f, isNextFoundationCard ⟨Suit.hearts, Rank.A, f⟩ Foundations.empty.hearts = true) ∧
    (∀ f, isNextFoundationCard ⟨Suit.hearts, Rank.r2, f⟩ Foundations.empty.hearts = false) ∧
    (handleFoundationDrop exWasteAce Suit.hearts).map State.game =
      some { exWasteAce.game with
        waste := [], foundations := { Foundations.empty with hearts := [⟨Suit.hearts, Rank.A, true⟩] } } ∧
    handleFoundationDrop exWasteTwo Suit.hearts = some exWasteTwo := by
  refine ⟨?_, ?_, ?_, ?_, isNextFoundationCard_iff, fun f => rfl, fun f => rfl, rfl, rfl⟩
  · intro s suit card hsel hw
    rw [handleFoundationDrop_waste_eq s suit card hsel hw]
    simp only [isNextFoundationCard_iff]
    by_cases hc : card.suit = suit ∧ rankIndex card.rank = (s.foundations.get suit).length
    · rw [if_pos hc]
      refine ⟨_, rfl, fun _ => ⟨?_, ?_, rfl, ?_, rfl, rfl⟩, fun h => absurd hc h⟩
      · intro h
        have h2 := congrArg (fun g => ((Game.foundations g).get suit).length) h
        simp [State.game, Foundations.get_put_self] at h2
      · exact Foundations.get_put_self _ _ _
      · intro t ht
        exact Foundations.get_put_other _ _ ht
    · rw [if_neg hc]
      exact ⟨s, rfl, fun h => absurd h hc, fun _ => rfl⟩
  · intro s suit p k pile card hsel hp hk
    rw [handleFoundationDrop_tableau_eq s suit p k pile card hsel hp hk]
    simp only [isNextFoundationCard_iff]
    have hklt : k < pile.length := getElem?_lt hk
    by_cases hc : card.suit = suit ∧ k = pile.length - 1 ∧
        rankIndex card.rank = (s.foundations.get suit).length
    · rw [if_pos hc]
      refine ⟨_, rfl, fun _ => ⟨?_, ?_, ⟨revealTop (pile.take k), ?_, ?_, ?_⟩, ?_, ?_, ?_, rfl, rfl⟩,
        fun h => absurd ⟨hc.1, hc.2.2, by omega⟩ h⟩
      · intro h
        have h2 := congrArg (fun g => ((Game.foundations g).get suit).length) h
        simp [State.game, Foundations.get_put_self] at h2
      · exact Foundations.get_put_self _ _ _
      · exact getElem?_set_self_of _ hp
      · rw [revealTop_length, List.length_take]; omega
      · rw [revealTop_keys, List.dropLast_eq_take, hc.2.1]
      · simp [saveUndoState]
      · intro j hj
        exact getElem?_set_other _ _ (Ne.symm hj)
      · intro t ht
        exact Foundations.get_put_other _ _ ht
    · rw [if_neg hc]
      refine ⟨s, rfl, fun h => absurd ⟨h.1, by omega, h.2.1⟩ hc, fun _ => rfl⟩
  · intro s suit h
    rcases h with h | ⟨t, h⟩ | ⟨h, hw⟩
    · simp [handleFoundationDrop, h]
    · simp [handleFoundationDrop, h]
    · simp [handleFoundationDrop, h, hw]
  · intro s suit p k hsel hnone
    simp only [step, handleFoundationDrop, hsel]
    cases hp : s.tableau[p]? with
    | none => rfl
    | some pile =>
      rw [hp] at hnone
      simp only [Option.some_bind] at hnone
      simp [hnone]

/-- The Ace of hearts sent to the hearts foundation, from the waste of `exWasteAce` and from
the tableau of `exTableauAce`. -/
theorem handleFoundationDrop_spec_witness :
    (exWasteAce.selection = some Selection.waste ∧
      exWasteAce.waste.getLast? = some ⟨Suit.hearts, Rank.A, true⟩ ∧
      ∃ s', handleFoundationDrop exWasteAce Suit.hearts = some s' ∧
        s'.foundations.get Suit.hearts =
          exWasteAce.foundations.get Suit.hearts ++ [⟨Suit.hearts, Rank.A, true⟩] ∧
        s'.waste = exWasteAce.waste.dropLast) ∧
    (exTableauAce.selection = some (Selection.tableau 0 1) ∧
      exTableauAce.tableau[0]? =
        some [⟨Suit.clubs, Rank.r5, false⟩, ⟨Suit.hearts, Rank.A, true⟩] ∧
      [(⟨Suit.clubs, Rank.r5, false⟩ : Card), ⟨Suit.hearts, Rank.A, true⟩][1]? =
        some ⟨Suit.hearts, Rank.A, true⟩ ∧
      ∃ s', handleFoundationDrop exTableauAce Suit.hearts = some s' ∧
        s'.foundations.get Suit.hearts =
          exTableauAce.foundations.get Suit.hearts ++ [⟨Suit.hearts, Rank.A, true⟩]) :=
  ⟨⟨rfl, rfl,
      let ⟨s', h1, h2, _⟩ := handleFoundationDrop_spec.1 exWasteAce Suit.hearts _ rfl rfl
      ⟨s', h1, (h2 ⟨rfl, rfl⟩).2.1, (h2 ⟨rfl, rfl⟩).2.2.1⟩⟩,
    ⟨rfl, rfl, rfl,
      let ⟨s', h1, h2, _⟩ :=
        handleFoundationDrop_spec.2.1 exTableauAce Suit.hearts 0 1 _ _ rfl rfl rfl
      ⟨s', h1, (h2 ⟨rfl, rfl, rfl⟩).2.1⟩⟩⟩

/-! ## The reveal -/

theorem revealTop_top_of_ne_nil (p : List Card) (h : revealTop p ≠ []) :
    ∃ top, (revealTop p).getLast? = some top ∧ top.faceUp = true := by
  rcases List.eq_nil_or_concat p with rfl | ⟨q, d, rfl⟩
  · exact absurd revealTop_nil h
  · rw [List.concat_eq_append, revealTop_concat, List.getLast?_concat]
    exact ⟨_, rfl, rfl⟩

theorem revealTop_take_getElem? (sp : List Card) (k i : Nat) (c : Card) (hk : k ≤ sp.length)
    (hi : i < k) (hc : sp[i]? = some c) :
    (revealTop (sp.take k))[i]? = some (if i + 1 = k then { c with faceUp := true } else c) := by
  rw [revealTop_getElem?, List.getElem?_take_of_lt hi, hc, List.length_take,
    Nat.min_eq_left hk]
  rfl

/-- C5: after an accepted tableau-to-tableau move, and after an accepted tableau-to-foundation
move, the source pile keeps its first `k` cards, its new top card (if any) is face-up, every
card below it is the same card with the same `faceUp` flag, the moved cards arrive with their
flags, and every other pile, the stock, the waste and the other foundations are as before: the
only flag that can change is the one of the new top card, and it can only become `true`. -/
theorem reveal_side_effect :
    (∀ (s : State) (src k tgt : Nat) (sp tp : List Card) (card : Card),
      src ≠ tgt → s.tableau[src]? = some sp → s.tableau[tgt]? = some tp → sp[k]? = some card →
      canPlaceOnTableau card tp.getLast? = true →
      ∃ s' np, handleTableauDrop s src k tgt = some s' ∧ s'.tableau[src]? = some np ∧
        np.length = k ∧
        (np ≠ [] → ∃ top, np.getLast? = some top ∧ top.faceUp = true) ∧
        (∀ i c, i < k → sp[i]? = some c →
          np[i]? = some (if i + 1 = k then { c with faceUp := true } else c)) ∧
        s'.tableau[tgt]? = some (tp ++ sp.drop k) ∧
        s'.tableau.length = s.tableau.length ∧
        (∀ j, j ≠ src → j ≠ tgt → s'.tableau[j]? = s.tableau[j]?) ∧
        s'.stock = s.stock ∧ s'.waste = s.waste ∧ s'.foundations = s.foundations) ∧
    (∀ (s : State) (suit : Suit) (p k : Nat) (pile : List Card) (card : Card),
      s.selection = some (Selection.tableau p k) → s.tableau[p]? = some pile →
      pile[k]? = some card →
      card.suit = suit → isNextFoundationCard card (s.foundations.get suit) = true →
      k + 1 = pile.length →
      ∃ s' np, handleFoundationDrop s suit = some s' ∧ s'.tableau[p]? = some np ∧
        np.length = k ∧
        (np ≠ [] → ∃ top, np.getLast? = some top ∧ top.faceUp = true) ∧
        (∀ i c, i < k → pile[i]? = some c →
          np[i]? = some (if i + 1 = k then { c with faceUp := true } else c)) ∧
        s'.foundations.get suit = s.foundations.get suit ++ [card] ∧
        (∀ t, t ≠ suit → s'.foundations.get t = s.foundations.get t) ∧
        s'.tableau.length = s.tableau.length ∧
        (∀ j, j ≠ p → s'.tableau[j]? = s.tableau[j]?) ∧
        s'.stock = s.stock ∧ s'.waste = s.waste) := by
  constructor
  · intro s src k tgt sp tp card hne hsrc htgt hk hc
    have hklt : k < sp.length := getElem?_lt hk
    rw [handleTableauDrop_eq s src k tgt sp tp card hne hsrc htgt hk, hc, if_pos rfl]
    refine ⟨_, revealTop (sp.take k), rfl, ?_, ?_, revealTop_top_of_ne_nil _, ?_, ?_, ?_, ?_,
      rfl, rfl, rfl⟩
    · show ((s.tableau.set src (revealTop (sp.take k))).set tgt (tp ++ sp.drop k))[src]? = _
      rw [getElem?_set_other _ _ (Ne.symm hne)]
      exact getElem?_set_self_of _ hsrc
    · rw [revealTop_length, List.length_take]; omega
    · intro i c hi hci
      exact revealTop_take_getElem? sp k i c (by omega) hi hci
    · show ((s.tableau.set src (revealTop (sp.take k))).set tgt (tp ++ sp.drop k))[tgt]? = _
      apply getElem?_set_self_of (a := tp)
      rw [getElem?_set_other _ _ hne]
      exact htgt
    · simp [saveUndoState]
    · intro j hjs hjt
      show ((s.tableau.set src (revealTop (sp.take k))).set tgt (tp ++ sp.drop k))[j]? = _
      rw [getElem?_set_other _ _ (Ne.symm hjt), getElem?_set_other _ _ (Ne.symm hjs)]
  · intro s suit p k pile card hsel hp hk hsuit hnext hlast
    have hklt : k < pile.length := getElem?_lt hk
    rw [isNextFoundationCard_iff] at hnext
    rw [handleFoundationDrop_tableau_eq s suit p k pile card hsel hp hk,
      if_pos ⟨hsuit, by omega, hnext⟩]
    refine ⟨_, revealTop (pile.take k), rfl, getElem?_set_self_of _ hp, ?_,
      revealTop_top_of_ne_nil _, ?_, Foundations.get_put_self _ _ _, ?_, ?_, ?_, rfl, rfl⟩
    · rw [revealTop_length, List.length_take]; omega
    · intro i c hi hci
      exact revealTop_take_getElem? pile k i c (by omega) hi hci
    · intro t ht
      exact Foundations.get_put_other _ _ ht
    · simp [saveUndoState]
    · intro j hj
      exact getElem?_set_other _ _ (Ne.symm hj)

/-- The two accepted moves of `exTableau` and `exTableauAce`, each uncovering a face-down
card. -/
theorem reveal_side_effect_witness :
    ((0 : Nat) ≠ 1 ∧
      exTableau.tableau[0]? =
        some [⟨Suit.hearts, Rank.r5, false⟩, ⟨Suit.clubs, Rank.r7, true⟩] ∧
      exTableau.tableau[1]? = some [⟨Suit.diamonds, Rank.r8, true⟩] ∧
      [(⟨Suit.hearts, Rank.r5, false⟩ : Card), ⟨Suit.clubs, Rank.r7, true⟩][1]? =
        some ⟨Suit.clubs, Rank.r7, true⟩ ∧
      canPlaceOnTableau ⟨Suit.clubs, Rank.r7, true⟩
        [(⟨Suit.diamonds, Rank.r8, true⟩ : Card)].getLast? = true ∧
      ∃ s' np, handleTableauDrop exTableau 0 1 1 = some s' ∧ s'.tableau[0]? = some np ∧
        (np ≠ [] → ∃ top, np.getLast? = some top ∧ top.faceUp = true)) ∧
    (exTableauAce.selection = some (Selection.tableau 0 1) ∧
      exTableauAce.tableau[0]? =
        some [⟨Suit.clubs, Rank.r5, false⟩, ⟨Suit.hearts, Rank.A, true⟩] ∧
      [(⟨Suit.clubs, Rank.r5, false⟩ : Card), ⟨Suit.hearts, Rank.A, true⟩][1]? =
        some ⟨Suit.hearts, Rank.A, true⟩ ∧
      isNextFoundationCard ⟨Suit.hearts, Rank.A, true⟩
        (exTableauAce.foundations.get Suit.hearts) = true ∧
      ∃ s' np, handleFoundationDrop exTableauAce Suit.hearts = some s' ∧
        s'.tableau[0]? = some np ∧
        (np ≠ [] → ∃ top, np.getLast? = some top ∧ top.faceUp = true)) :=
  ⟨⟨by decide, rfl, rfl, rfl, rfl,
      let ⟨s', np, h1, h2, _, h3, _⟩ :=
        reveal_side_effect.1 exTableau 0 1 1 _ _ _ (by decide) rfl rfl rfl rfl
      ⟨s', np, h1, h2, h3⟩⟩,
    ⟨rfl, rfl, rfl, rfl,
      let ⟨s', np, h1, h2, _, h3, _⟩ :=
        reveal_side_effect.2 exTableauAce Suit.hearts 0 1 _ _ rfl rfl rfl rfl rfl rfl
      ⟨s', np, h1, h2, h3⟩⟩⟩

/-! ## Stock and waste -/

theorem onStockClick_draw (s : State) (card : Card) (h : s.stock.getLast? = some card) :
    onStockClick s =
      { saveUndoState s with
        stock := s.stock.dropLast, waste := s.waste ++ [{ card with faceUp := true }],
        selection := none } := by
  simp only [onStockClick, h]

theorem onStockClick_recycle (s : State) (h : s.stock = []) :
    onStockClick s =
      { saveUndoState s with
        stock := (s.waste.map fun card => { card with faceUp := false }).reverse,
        waste := [], selection := none } := by
  simp only [onStockClick, h, List.getLast?_nil]

/-- C7: with a non-empty stock, `onStockClick` takes the last card off the stock, puts the
same suit and rank face-up at the end of the waste, keeps the other stock cards and the old
waste cards in place, and leaves tableau and foundations alone. -/
theorem onStockClick_draw_spec (s : State) (h : s.stock ≠ []) :
    ∃ card, s.stock = (onStockClick s).stock ++ [card] ∧
      (onStockClick s).waste = s.waste ++ [⟨card.suit, card.rank, true⟩] ∧
      (onStockClick s).tableau = s.tableau ∧
      (onStockClick s).foundations = s.foundations := by
  rcases List.eq_nil_or_concat s.stock with hnil | ⟨q, c, hq⟩
  · exact absurd hnil h
  · rw [List.concat_eq_append] at hq
    have hl : s.stock.getLast? = some c := by rw [hq, List.getLast?_concat]
    rw [onStockClick_draw s c hl]
    refine ⟨c, ?_, rfl, rfl, rfl⟩
    show s.stock = s.stock.dropLast ++ [c]
    rw [hq, List.dropLast_concat]

/-- A draw from the two-card stock of `exStock`. -/
theorem onStockClick_draw_spec_witness :
    exStock.stock ≠ [] ∧
    ∃ card, exStock.stock = (onStockClick exStock).stock ++ [card] ∧
      (onStockClick exStock).waste = exStock.waste ++ [⟨card.suit, card.rank, true⟩] ∧
      (onStockClick exStock).tableau = exStock.tableau ∧
      (onStockClick exStock).foundations = exStock.foundations :=
  ⟨by decide, onStockClick_draw_spec exStock (by decide)⟩

/-- C8: with an empty stock, `onStockClick` makes the stock the waste cards in reversed order,
every one face-down, empties the waste, and leaves tableau and foundations alone; five waste
cards become a stock of those five reversed, all face-down. -/
theorem onStockClick_recycle_spec :
    (∀ (s : State), s.stock = [] →
      (onStockClick s).stock = s.waste.reverse.map (fun c => ⟨c.suit, c.rank, false⟩) ∧
      (onStockClick s).stock.map cardKey = (s.waste.map cardKey).reverse ∧
      (∀ c ∈ (onStockClick s).stock, c.faceUp = false) ∧
      (onStockClick s).waste = [] ∧
      (onStockClick s).tableau = s.tableau ∧
      (onStockClick s).foundations = s.foundations) ∧
    (onStockClick exRecycle).stock =
      [⟨Suit.hearts, Rank.r10, false⟩, ⟨Suit.spades, Rank.A, false⟩,
       ⟨Suit.hearts, Rank.Q, false⟩, ⟨Suit.clubs, Rank.r3, false⟩,
       ⟨Suit.diamonds, Rank.r9, false⟩] ∧
    (onStockClick exRecycle).waste = [] := by
  refine ⟨?_, rfl, rfl⟩
  intro s h
  rw [onStockClick_recycle s h]
  refine ⟨?_, ?_, ?_, rfl, rfl, rfl⟩
  · simp [List.map_reverse]
  · simp [List.map_reverse, cardKey, Function.comp_def]
  · intro c hc
    simp only [List.mem_reverse, List.mem_map] at hc
    obtain ⟨d, _, rfl⟩ := hc
    rfl

/-- A recycle of the five waste cards of `exRecycle`. -/
theorem onStockClick_recycle_spec_witness :
    exRecycle.stock = [] ∧
    (onStockClick exRecycle).stock =
      exRecycle.waste.reverse.map (fun c => ⟨c.suit, c.rank, false⟩) ∧
    (onStockClick exRecycle).waste = [] :=
  ⟨rfl, (onStockClick_recycle_spec.1 exRecycle rfl).1,
    (onStockClick_recycle_spec.1 exRecycle rfl).2.2.2.1⟩

/-! ## Undo -/

theorem handleTableauDrop_saved (s s' : State) (a k b : Nat)
    (h : handleTableauDrop s a k b = some s') :
    s' = s ∨ s'.undoState = some s.game := by
  unfold handleTableauDrop at h
  split at h
  · left; exact (Option.some.inj h).symm
  · split at h
    · dsimp only at h
      split at h
      · cases h
      · split at h
        · right; rw [← Option.some.inj h]; rfl
        · left; exact (Option.some.inj h).symm
    · cases h

theorem handleWasteDrop_saved (s s' : State) (b : Nat) (h : handleWasteDrop s b = some s') :
    s' = s ∨ s'.undoState = some s.game := by
  unfold handleWasteDrop at h
  split at h
  · left; exact (Option.some.inj h).symm
  · split at h
    · cases h
    · dsimp only at h
      split at h
      · right; rw [← Option.some.inj h]; rfl
      · left; exact (Option.some.inj h).symm

theorem handleFoundationDrop_saved (s s' : State) (suit : Suit)
    (h : handleFoundationDrop s suit = some s') :
    s' = s ∨ s'.undoState = some s.game := by
  unfold handleFoundationDrop at h
  split at h
  · split at h
    · left; exact (Option.some.inj h).symm
    · split at h
      · right; rw [← Option.some.inj h]; rfl
      · left; exact (Option.some.inj h).symm
  · split at h
    · cases h
    · split at h
      · cases h
      · split at h
        · right; rw [← Option.some.inj h]; rfl
        · left; exact (Option.some.inj h).symm
  · left; exact (Option.some.inj h).symm

theorem handleFoundationToTableauDrop_saved (s s' : State) (suit : Suit) (b : Nat)
    (h : handleFoundationToTableauDrop s suit b = some s') :
    s' = s ∨ s'.undoState = some s.game := by
  unfold handleFoundationToTableauDrop at h
  simp only at h
  split at h
  · left; exact (Option.some.inj h).symm
  · split at h
    · cases h
    · split at h
      · right; rw [← Option.some.inj h]; rfl
      · left; exact (Option.some.inj h).symm

theorem getD_saved (s : State) (r : Option State)
    (h : ∀ s', r = some s' → s' = s ∨ s'.undoState = some s.game) :
    r.getD s = s ∨ (r.getD s).undoState = some s.game := by
  cases r with
  | none => left; rfl
  | some s' => exact h s' rfl

theorem onStockClick_saved (s : State) : (onStockClick s).undoState = some s.game := by
  unfold onStockClick
  split <;> rfl

/-- A request other than undo either saves the zones it started from, or changes none of
them and keeps the stored snapshot. -/
theorem step_saved (s : State) (m : Move) (hm : m ≠ Move.undo) :
    (step s m).undoState = some s.game ∨
      ((step s m).game = s.game ∧ (step s m).undoState = s.undoState) := by
  cases m with
  | stockClick => left; exact onStockClick_saved s
  | tableauDrop a k b =>
    rcases getD_saved s _ (fun s' => handleTableauDrop_saved s s' a k b) with h | h
    · right; simp only [step]; rw [h]; exact ⟨rfl, rfl⟩
    · left; exact h
  | wasteDrop b =>
    rcases getD_saved s _ (fun s' => handleWasteDrop_saved s s' b) with h | h
    · right; simp only [step]; rw [h]; exact ⟨rfl, rfl⟩
    · left; exact h
  | foundationDrop suit =>
    rcases getD_saved s _ (fun s' => handleFoundationDrop_saved s s' suit) with h | h
    · right; simp only [step]; rw [h]; exact ⟨rfl, rfl⟩
    · left; exact h
  | foundationToTableauDrop suit b =>
    rcases getD_saved s _ (fun s' => handleFoundationToTableauDrop_saved s s' suit b) with h | h
    · right; simp only [step]; rw [h]; exact ⟨rfl, rfl⟩
    · left; exact h
  | undo => exact absurd rfl hm
  | select sel => right; exact ⟨rfl, rfl⟩

theorem handleUndo_of_saved (s' : State) (g : Game) (h : s'.undoState = some g) :
    (handleUndo s').game = g ∧ (handleUndo s').undoState = none := by
  unfold handleUndo
  rw [h]
  exact ⟨rfl, rfl⟩

theorem handleUndo_of_none (s : State) (h : s.undoState = none) : handleUndo s = s := by
  unfold handleUndo
  rw [h]

theorem handleUndo_undoState (s : State) : (handleUndo s).undoState = none := by
  unfold handleUndo
  split
  · rfl
  · assumption

/-- C9: after a request that was accepted (a click on the stock, or any drop that changed a
zone) `handleUndo` gives back the tableau, stock, waste and foundations of the state the request
started from, card for card with the `faceUp` flags, and clears the snapshot. The accepting
branch of each handler is covered one by one. -/
theorem undo_restores :
    (∀ (s : State) (m : Move), m ≠ Move.undo →
      (m = Move.stockClick ∨ (step s m).game ≠ s.game) →
      (handleUndo (step s m)).game = s.game ∧ (handleUndo (step s m)).undoState = none) ∧
    (∀ (s : State),
      (handleUndo (onStockClick s)).game = s.game ∧
        (handleUndo (onStockClick s)).undoState = none) ∧
    (∀ (s : State) (src k tgt : Nat) (sp tp : List Card) (card : Card),
      src ≠ tgt → s.tableau[src]? = some sp → s.tableau[tgt]? = some tp → sp[k]? = some card →
      canPlaceOnTableau card tp.getLast? = true →
      ∃ s', handleTableauDrop s src k tgt = some s' ∧
        (handleUndo s').game = s.game ∧ (handleUndo s').undoState = none) ∧
    (∀ (s : State) (tgt : Nat) (tp : List Card) (card : Card),
      s.waste.getLast? = some card → s.tableau[tgt]? = some tp →
      canPlaceOnTableau card tp.getLast? = true →
      ∃ s', handleWasteDrop s tgt = some s' ∧
        (handleUndo s').game = s.game ∧ (handleUndo s').undoState = none) ∧
    (∀ (s : State) (suit : Suit) (card : Card),
      s.selection = some Selection.waste → s.waste.getLast? = some card →
      card.suit = suit → isNextFoundationCard card (s.foundations.get suit) = true →
      ∃ s', handleFoundationDrop s suit = some s' ∧
        (handleUndo s').game = s.game ∧ (handleUndo s').undoState = none) ∧
    (∀ (s : State) (suit : Suit) (p k : Nat) (pile : List Card) (card : Card),
      s.selection = some (Selection.tableau p k) → s.tableau[p]? = some pile →
      pile[k]? = some card → card.suit = suit → k + 1 = pile.length →
      isNextFoundationCard card (s.foundations.get suit) = true →
      ∃ s', handleFoundationDrop s suit = some s' ∧
        (handleUndo s').game = s.game ∧ (handleUndo s').undoState = none) ∧
    (∀ (s : State) (suit : Suit) (tgt : Nat) (tp : List Card) (card : Card),
      (s.foundations.get suit).getLast? = some card → s.tableau[tgt]? = some tp →
      canPlaceOnTableau card tp.getLast? = true →
      ∃ s', handleFoundationToTableauDrop s suit tgt = some s' ∧
        (handleUndo s').game = s.game ∧ (handleUndo s').undoState = none) := by
  refine ⟨?_, ?_, ?_, ?_, ?_, ?_, ?_⟩
  · intro s m hm hacc
    rcases step_saved s m hm with h | ⟨hg, _⟩
    · exact handleUndo_of_saved _ _ h
    · rcases hacc with rfl | hne
      · exact handleUndo_of_saved _ _ (onStockClick_saved s)
      · exact absurd hg hne
  · intro s
    exact handleUndo_of_saved _ _ (onStockClick_saved s)
  · intro s src k tgt sp tp card hne hsrc htgt hk hc
    rw [handleTableauDrop_eq s src k tgt sp tp card hne hsrc htgt hk, hc, if_pos rfl]
    exact ⟨_, rfl, handleUndo_of_saved _ _ rfl⟩
  · intro s tgt tp card hw htgt hc
    rw [handleWasteDrop_eq s tgt tp card hw htgt, hc, if_pos rfl]
    exact ⟨_, rfl, handleUndo_of_saved _ _ rfl⟩
  · intro s suit card hsel hw hsuit hnext
    rw [isNextFoundationCard_iff] at hnext
    rw [handleFoundationDrop_waste_eq s suit card hsel hw, if_pos ⟨hsuit, hnext⟩]
    exact ⟨_, rfl, handleUndo_of_saved _ _ rfl⟩
  · intro s suit p k pile card hsel hp hk hsuit hlast hnext
    rw [isNextFoundationCard_iff] at hnext
    rw [handleFoundationDrop_tableau_eq s suit p k pile card hsel hp hk,
      if_pos ⟨hsuit, by omega, hnext⟩]
    exact ⟨_, rfl, handleUndo_of_saved _ _ rfl⟩
  · intro s suit tgt tp card hf htgt hc
    rw [handleFoundationToTableauDrop_eq s suit tgt tp card hf htgt, hc, if_pos rfl]
    exact ⟨_, rfl, handleUndo_of_saved _ _ rfl⟩

/-- Undo after the tableau move of `exTableau` and after the foundation move of
`exWasteAce`. -/
theorem undo_restores_witness :
    (Move.tableauDrop 0 1 1 ≠ Move.undo ∧
      (Move.tableauDrop 0 1 1 = Move.stockClick ∨
        (step exTableau (Move.tableauDrop 0 1 1)).game ≠ exTableau.game) ∧
      (handleUndo (step exTableau (Move.tableauDrop 0 1 1))).game = exTableau.game ∧
      (handleUndo (step exTableau (Move.tableauDrop 0 1 1))).undoState = none) ∧
    (exWasteAce.selection = some Selection.waste ∧
      exWasteAce.waste.getLast? = some ⟨Suit.hearts, Rank.A, true⟩ ∧
      isNextFoundationCard ⟨Suit.hearts, Rank.A, true⟩
        (exWasteAce.foundations.get Suit.hearts) = true ∧
      ∃ s', handleFoundationDrop exWasteAce Suit.hearts = some s' ∧
        (handleUndo s').game = exWasteAce.game ∧ (handleUndo s').undoState = none) :=
  ⟨⟨by decide, Or.inr (by decide),
      undo_restores.1 exTableau (Move.tableauDrop 0 1 1) (by decide) (Or.inr (by decide))⟩,
    ⟨rfl, rfl, rfl, undo_restores.2.2.2.2.1 exWasteAce Suit.hearts _ rfl rfl rfl rfl⟩⟩

/-- C10: `handleUndo` twice is `handleUndo` once; with no snapshot it changes nothing; after
two requests in a row, the second of them accepted, one undo gives back the zones as they were
before the second request, not those before the first, and a further undo changes nothing. -/
theorem undo_idempotent :
    (∀ (s : State), handleUndo (handleUndo s) = handleUndo s) ∧
    (∀ (s : State), s.undoState = none → handleUndo s = s) ∧
    (∀ (s : State) (m₁ m₂ : Move), m₂ ≠ Move.undo →
      (m₂ = Move.stockClick ∨ (step (step s m₁) m₂).game ≠ (step s m₁).game) →
      (handleUndo (step (step s m₁) m₂)).game = (step s m₁).game ∧
      ((step s m₁).game ≠ s.game → (handleUndo (step (step s m₁) m₂)).game ≠ s.game) ∧
      (handleUndo (step (step s m₁) m₂)).undoState = none ∧
      handleUndo (handleUndo (step (step s m₁) m₂)) = handleUndo (step (step s m₁) m₂)) := by
  have hidem : ∀ (s : State), handleUndo (handleUndo s) = handleUndo s :=
    fun s => handleUndo_of_none _ (handleUndo_undoState s)
  refine ⟨hidem, handleUndo_of_none, ?_⟩
  intro s m₁ m₂ hm hacc
  have hrest : (handleUndo (step (step s m₁) m₂)).game = (step s m₁).game ∧
      (handleUndo (step (step s m₁) m₂)).undoState = none := by
    rcases step_saved (step s m₁) m₂ hm with h | ⟨hg, _⟩
    · exact handleUndo_of_saved _ _ h
    · rcases hacc with rfl | hne
      · exact handleUndo_of_saved _ _ (onStockClick_saved _)
      · exact absurd hg hne
  refine ⟨hrest.1, ?_, hrest.2, hidem _⟩
  intro hne
  rw [hrest.1]
  exact hne

/-- Two draws from `exStock` followed by one undo. -/
theorem undo_idempotent_witness :
    exStock.undoState = none ∧ handleUndo exStock = exStock ∧
    Move.stockClick ≠ Move.undo ∧
    (handleUndo (step (step exStock Move.stockClick) Move.stockClick)).game =
      (step exStock Move.stockClick).game ∧
    (handleUndo (step (step exStock Move.stockClick) Move.stockClick)).game ≠ exStock.game :=
  ⟨rfl, undo_idempotent.2.1 exStock rfl, by decide,
    (undo_idempotent.2.2 exStock Move.stockClick Move.stockClick (by decide) (Or.inl rfl)).1,
    (undo_idempotent.2.2 exStock Move.stockClick Move.stockClick (by decide) (Or.inl rfl)).2.1
      (by decide)⟩

/-! ## The shape of every accepted request -/

theorem handleTableauDrop_shape (s s' : State) (a k b : Nat)
    (h : handleTableauDrop s a k b = some s') :
    s' = s ∨ ∃ sp tp, a ≠ b ∧ s.tableau[a]? = some sp ∧ s.tableau[b]? = some tp ∧
      k < sp.length ∧
      s' = { saveUndoState s with
        tableau := (s.tableau.set a (revealTop (sp.take k))).set b (tp ++ sp.drop k) } := by
  by_cases hab : a = b
  · subst hab
    rw [handleTableauDrop_same] at h
    left; exact (Option.some.inj h).symm
  · cases hsp : s.tableau[a]? with
    | none => simp [handleTableauDrop, hab, hsp] at h
    | some sp =>
      cases htp : s.tableau[b]? with
      | none => simp [handleTableauDrop, hab, hsp, htp] at h
      | some tp =>
        cases hk : sp[k]? with
        | none => simp [handleTableauDrop, hab, hsp, htp, List.head?_drop, hk] at h
        | some card =>
          rw [handleTableauDrop_eq s a k b sp tp card hab hsp htp hk] at h
          by_cases hc : canPlaceOnTableau card tp.getLast? = true
          · rw [if_pos hc] at h
            right
            exact ⟨sp, tp, hab, rfl, rfl, getElem?_lt hk, (Option.some.inj h).symm⟩
          · rw [if_neg hc] at h
            left; exact (Option.some.inj h).symm

theorem handleWasteDrop_shape (s s' : State) (b : Nat) (h : handleWasteDrop s b = some s') :
    s' = s ∨ ∃ card tp, s.waste.getLast? = some card ∧ s.tableau[b]? = some tp ∧
      s' = { saveUndoState s with
        tableau := s.tableau.set b (tp ++ [card]), waste := s.waste.dropLast } := by
  cases hw : s.waste.getLast? with
  | none =>
    simp only [handleWasteDrop, hw] at h
    left; exact (Option.some.inj h).symm
  | some card =>
    cases htp : s.tableau[b]? with
    | none => simp [handleWasteDrop, hw, htp] at h
    | some tp =>
      rw [handleWasteDrop_eq s b tp card hw htp] at h
      by_cases hc : canPlaceOnTableau card tp.getLast? = true
      · rw [if_pos hc] at h
        right
        exact ⟨card, tp, rfl, rfl, (Option.some.inj h).symm⟩
      · rw [if_neg hc] at h
        left; exact (Option.some.inj h).symm

theorem handleFoundationDrop_shape (s s' : State) (suit : Suit)
    (h : handleFoundationDrop s suit = some s') :
    s' = s ∨
    (∃ card, s.waste.getLast? = some card ∧ card.suit = suit ∧
      rankIndex card.rank = (s.foundations.get suit).length ∧
      s' = { saveUndoState s with
        foundations := s.foundations.put suit (s.foundations.get suit ++ [card]),
        waste := s.waste.dropLast }) ∨
    (∃ p k pile card, s.tableau[p]? = some pile ∧ pile[k]? = some card ∧ k + 1 = pile.length ∧
      card.suit = suit ∧ rankIndex card.rank = (s.foundations.get suit).length ∧
      s' = { saveUndoState s with
        foundations := s.foundations.put suit (s.foundations.get suit ++ [card]),
        tableau := s.tableau.set p (revealTop (pile.take k)) }) := by
  cases hsel : s.selection with
  | none =>
    simp only [handleFoundationDrop, hsel] at h
    left; exact (Option.some.inj h).symm
  | some sel =>
    cases sel with
    | waste =>
      cases hw : s.waste.getLast? with
      | none =>
        simp only [handleFoundationDrop, hsel, hw] at h
        left; exact (Option.some.inj h).symm
      | some card =>
        rw [handleFoundationDrop_waste_eq s suit card hsel hw] at h
        by_cases hc : card.suit = suit ∧ rankIndex card.rank = (s.foundations.get suit).length
        · rw [if_pos hc] at h
          right; left
          exact ⟨card, rfl, hc.1, hc.2, (Option.some.inj h).symm⟩
        · rw [if_neg hc] at h
          left; exact (Option.some.inj h).symm
    | tableau p k =>
      cases hp : s.tableau[p]? with
      | none => simp [handleFoundationDrop, hsel, hp] at h
      | some pile =>
        cases hk : pile[k]? with
        | none => simp [handleFoundationDrop, hsel, hp, hk] at h
        | some card =>
          rw [handleFoundationDrop_tableau_eq s suit p k pile card hsel hp hk] at h
          have hklt : k < pile.length := getElem?_lt hk
          by_cases hc : card.suit = suit ∧ k = pile.length - 1 ∧
              rankIndex card.rank = (s.foundations.get suit).length
          · rw [if_pos hc] at h
            right; right
            exact ⟨p, k, pile, card, hp, hk, by omega, hc.1, hc.2.2, (Option.some.inj h).symm⟩
          · rw [if_neg hc] at h
            left; exact (Option.some.inj h).symm
    | foundation t =>
      simp only [handleFoundationDrop, hsel] at h
      left; exact (Option.some.inj h).symm

theorem handleFoundationToTableauDrop_shape (s s' : State) (suit : Suit) (b : Nat)
    (h : handleFoundationToTableauDrop s suit b = some s') :
    s' = s ∨ ∃ card tp, (s.foundations.get suit).getLast? = some card ∧
      s.tableau[b]? = some tp ∧
      s' = { saveUndoState s with
        foundations := s.foundations.put suit (s.foundations.get suit).dropLast,
        tableau := s.tableau.set b (tp ++ [{ card with faceUp := true }]) } := by
  cases hf : (s.foundations.get suit).getLast? with
  | none =>
    simp only [handleFoundationToTableauDrop, hf] at h
    left; exact (Option.some.inj h).symm
  | some card =>
    cases htp : s.tableau[b]? with
    | none => simp [handleFoundationToTableauDrop, hf, htp] at h
    | some tp =>
      rw [handleFoundationToTableauDrop_eq s suit b tp card hf htp] at h
      by_cases hc : canPlaceOnTableau card tp.getLast? = true
      · rw [if_pos hc] at h
        right
        exact ⟨card, tp, rfl, rfl, (Option.some.inj h).symm⟩
      · rw [if_neg hc] at h
        left; exact (Option.some.inj h).symm

/-! ## Foundation ordering -/

theorem ranks_rankIndex (r : Rank) : ranks[rankIndex r]? = some r := by
  cases r <;> rfl

theorem Foundations.ordered_empty : Foundations.empty.ordered := by
  intro suit i c h
  cases suit <;> simp [Foundations.get, Foundations.empty] at h

theorem Foundations.ordered_put_append (f : Foundations) (suit : Suit) (card : Card)
    (hf : f.ordered) (hs : card.suit = suit) (hr : rankIndex card.rank = (f.get suit).length) :
    (f.put suit (f.get suit ++ [card])).ordered := by
  intro t i c h
  by_cases ht : t = suit
  · subst ht
    rw [Foundations.get_put_self] at h
    by_cases hi : i < (f.get t).length
    · rw [List.getElem?_append_left hi] at h
      exact hf t i c h
    · have hlt : i < (f.get t ++ [card]).length := getElem?_lt h
      have hi2 : i = (f.get t).length := by
        simp only [List.length_append, List.length_singleton] at hlt
        omega
      subst hi2
      simp only [List.getElem?_concat_length, Option.some.injEq] at h
      subst h
      exact ⟨hs, by rw [← hr]; exact ranks_rankIndex _⟩
  · rw [Foundations.get_put_other _ _ ht] at h
    exact hf t i c h

theorem Foundations.ordered_put_dropLast (f : Foundations) (suit : Suit) (hf : f.ordered) :
    (f.put suit (f.get suit).dropLast).ordered := by
  intro t i c h
  by_cases ht : t = suit
  · subst ht
    rw [Foundations.get_put_self, List.dropLast_eq_take, List.getElem?_take] at h
    split at h
    · exact hf t i c h
    · cases h
  · rw [Foundations.get_put_other _ _ ht] at h
    exact hf t i c h

theorem Foundations.ordered_length_le (f : Foundations) (hf : f.ordered) (suit : Suit) :
    (f.get suit).length ≤ 13 := by
  by_contra hgt
  have hlt : 13 < (f.get suit).length := by omega
  have h := hf suit 13 _ (List.getElem?_eq_getElem hlt)
  have h2 : ranks[13]? = none := rfl
  rw [h2] at h
  cases h.2

theorem foundationsOrdered_of_result (s s' : State) (hs : s.foundationsOrdered)
    (hsaved : s' = s ∨ s'.undoState = some s.game) (hf : s'.foundations.ordered) :
    s'.foundationsOrdered := by
  refine ⟨hf, ?_⟩
  rcases hsaved with rfl | h
  · exact hs.2
  · intro u hu
    rw [h] at hu
    cases hu
    exact hs.1

theorem onStockClick_foundations (s : State) :
    (onStockClick s).foundations = s.foundations := by
  unfold onStockClick
  split <;> rfl

theorem onStockClick_tableau (s : State) : (onStockClick s).tableau = s.tableau := by
  unfold onStockClick
  split <;> rfl

theorem step_foundationsOrdered (s : State) (m : Move) (hs : s.foundationsOrdered) :
    (step s m).foundationsOrdered := by
  cases m with
  | stockClick =>
    refine foundationsOrdered_of_result s _ hs (Or.inr (onStockClick_saved s)) ?_
    show (onStockClick s).foundations.ordered
    rw [onStockClick_foundations]
    exact hs.1
  | tableauDrop a k b =>
    simp only [step]
    cases h : handleTableauDrop s a k b with
    | none => exact hs
    | some s' =>
      refine foundationsOrdered_of_result s _ hs (handleTableauDrop_saved s s' a k b h) ?_
      rcases handleTableauDrop_shape s s' a k b h with rfl | ⟨sp, tp, _, _, _, _, rfl⟩
      · exact hs.1
      · exact hs.1
  | wasteDrop b =>
    simp only [step]
    cases h : handleWasteDrop s b with
    | none => exact hs
    | some s' =>
      refine foundationsOrdered_of_result s _ hs (handleWasteDrop_saved s s' b h) ?_
      rcases handleWasteDrop_shape s s' b h with rfl | ⟨card, tp, _, _, rfl⟩
      · exact hs.1
      · exact hs.1
  | foundationDrop suit =>
    simp only [step]
    cases h : handleFoundationDrop s suit with
    | none => exact hs
    | some s' =>
      refine foundationsOrdered_of_result s _ hs (handleFoundationDrop_saved s s' suit h) ?_
      rcases handleFoundationDrop_shape s s' suit h with
        rfl | ⟨card, _, hsuit, hr, rfl⟩ | ⟨p, k, pile, card, _, _, _, hsuit, hr, rfl⟩
      · exact hs.1
      · exact Foundations.ordered_put_append _ _ _ hs.1 hsuit hr
      · exact Foundations.ordered_put_append _ _ _ hs.1 hsuit hr
  | foundationToTableauDrop suit b =>
    simp only [step]
    cases h : handleFoundationToTableauDrop s suit b with
    | none => exact hs
    | some s' =>
      refine foundationsOrdered_of_result s _ hs
        (handleFoundationToTableauDrop_saved s s' suit b h) ?_
      rcases handleFoundationToTableauDrop_shape s s' suit b h with rfl | ⟨card, tp, _, _, rfl⟩
      · exact hs.1
      · exact Foundations.ordered_put_dropLast _ _ hs.1
  | undo =>
    show (handleUndo s).foundationsOrdered
    cases hu : s.undoState with
    | none =>
      rw [handleUndo_of_none s hu]
      exact hs
    | some u =>
      obtain ⟨hg, hn⟩ := handleUndo_of_saved s u hu
      refine ⟨?_, ?_⟩
      · have hfu : (handleUndo s).foundations = u.foundations := congrArg Game.foundations hg
        rw [hfu]
        exact hs.2 u hu
      · intro v hv
        rw [hn] at hv
        cases hv
  | select sel => exact hs

theorem run_foundationsOrdered (ms : List Move) (s : State) (hs : s.foundationsOrdered) :
    (run s ms).foundationsOrdered := by
  induction ms generalizing s with
  | nil => exact hs
  | cons m ms ih => exact ih (step s m) (step_foundationsOrdered s m hs)

theorem deal_fresh (deck : List Card) (s₀ : State) (h : deal deck = some s₀) :
    s₀.foundations = Foundations.empty ∧ s₀.waste = [] ∧ s₀.undoState = none ∧
      s₀.selection = none ∧ dealLoop 7 0 deck [] = some (s₀.tableau, s₀.stock) := by
  unfold deal at h
  split at h
  · cases h
  · next newTableau rest heq =>
    cases h
    exact ⟨rfl, rfl, rfl, rfl, heq⟩

/-- C6: in every state reached from a deal by any sequence of requests (undo and
foundation-to-tableau drops included), the card at index `i` of `foundations[s]` has suit `s`
and rank `ranks[i]`, so each foundation ascends from the Ace in one suit and holds at most 13
cards. -/
theorem foundation_ordering (deck : List Card) (s₀ : State) (h : deal deck = some s₀)
    (ms : List Move) (suit : Suit) :
    (∀ (i : Nat) (c : Card), ((run s₀ ms).foundations.get suit)[i]? = some c →
      c.suit = suit ∧ ranks[i]? = some c.rank) ∧
    ((run s₀ ms).foundations.get suit).length ≤ 13 := by
  obtain ⟨hf, _, hu, _, _⟩ := deal_fresh deck s₀ h
  have h0 : s₀.foundationsOrdered := by
    refine ⟨?_, ?_⟩
    · rw [hf]; exact Foundations.ordered_empty
    · intro u hu'
      rw [hu] at hu'
      cases hu'
  have hrun := run_foundationsOrdered ms s₀ h0
  exact ⟨fun i c hc => hrun.1 suit i c hc, Foundations.ordered_length_le _ hrun.1 suit⟩

/-- The deal of the unshuffled deck followed by a draw, a foundation drop and an undo. -/
theorem foundation_ordering_witness :
    deal canonicalDeck = some exDealt ∧
    (∀ (i : Nat) (c : Card),
      ((run exDealt [Move.stockClick, Move.select (some Selection.waste),
          Move.foundationDrop Suit.spades, Move.undo]).foundations.get Suit.spades)[i]? =
        some c →
      c.suit = Suit.spades ∧ ranks[i]? = some c.rank) :=
  ⟨by decide, (foundation_ordering canonicalDeck exDealt (by decide) _ Suit.spades).1⟩

/-! ## Card conservation -/

theorem keyCount_nil (a : Suit × Rank) : keyCount a [] = 0 := rfl

theorem keyCount_append (a : Suit × Rank) (p q : List Card) :
    keyCount a (p ++ q) = keyCount a p + keyCount a q := by
  simp [keyCount, List.count_append]

theorem keyCount_revealTop (a : Suit × Rank) (p : List Card) :
    keyCount a (revealTop p) = keyCount a p := by
  simp only [keyCount, revealTop_keys]

theorem keyCount_take_drop (a : Suit × Rank) (k : Nat) (p : List Card) :
    keyCount a (p.take k) + keyCount a (p.drop k) = keyCount a p := by
  rw [← keyCount_append, List.take_append_drop]

theorem keyCount_dropLast (a : Suit × Rank) (p : List Card) (c : Card)
    (h : p.getLast? = some c) : keyCount a p.dropLast + keyCount a [c] = keyCount a p := by
  rw [← keyCount_append, List.dropLast_append_getLast? c h]

theorem keyCount_flag (a : Suit × Rank) (c : Card) (b : Bool) :
    keyCount a [{ c with faceUp := b }] = keyCount a [c] := rfl

theorem keyCount_recycle (a : Suit × Rank) (w : List Card) :
    keyCount a (w.map fun card => { card with faceUp := false }).reverse = keyCount a w := by
  have h : (w.map fun card => { card with faceUp := false }).map cardKey = w.map cardKey := by
    rw [List.map_map]
    rfl
  unfold keyCount
  rw [List.map_reverse, h]
  exact @List.count_reverse _ instBEqOfDecidableEq a _

theorem tableauCount_set (a : Suit × Rank) (t : List (List Card)) (i : Nat) (p x : List Card)
    (h : t[i]? = some p) :
    tableauCount a (t.set i x) + keyCount a p = tableauCount a t + keyCount a x := by
  induction t generalizing i with
  | nil => simp at h
  | cons q t ih =>
    cases i with
    | zero =>
      simp only [List.getElem?_cons_zero, Option.some.injEq] at h
      subst h
      simp only [tableauCount, List.set_cons_zero, List.map_cons, List.sum_cons]
      omega
    | succ i =>
      simp only [List.getElem?_cons_succ] at h
      have := ih i h
      simp only [tableauCount, List.set_cons_succ, List.map_cons, List.sum_cons] at this ⊢
      omega

theorem tableauCount_eq (a : Suit × Rank) (t : List (List Card)) :
    tableauCount a t = @List.count (Suit × Rank) instBEqOfDecidableEq a (t.flatten.map cardKey) := by
  induction t with
  | nil => rfl
  | cons q t ih =>
    simp only [tableauCount, List.map_cons, List.sum_cons, List.flatten_cons, List.map_append,
      List.count_append] at ih ⊢
    rw [ih]
    rfl

theorem Game.count_eq (g : Game) (a : Suit × Rank) :
    @List.count (Suit × Rank) instBEqOfDecidableEq a g.keys = g.count a := by
  simp only [Game.keys, Game.cards, List.map_append, List.count_append, Game.count,
    Foundations.count, tableauCount_eq, keyCount]
  omega

theorem Game.keys_perm_iff (g g' : Game) : g'.keys.Perm g.keys ↔ ∀ a, g'.count a = g.count a := by
  rw [List.perm_iff_count]
  constructor
  · intro h a
    rw [← Game.count_eq, ← Game.count_eq]
    exact h a
  · intro h a
    have := h a
    rw [← Game.count_eq, ← Game.count_eq] at this
    exact this

theorem Foundations.count_put (f : Foundations) (a : Suit × Rank) (suit : Suit)
    (pile : List Card) :
    (f.put suit pile).count a + keyCount a (f.get suit) = f.count a + keyCount a pile := by
  cases suit <;> simp only [Foundations.count, Foundations.put, Foundations.get] <;> omega

theorem onStockClick_count (s : State) (a : Suit × Rank) :
    (onStockClick s).game.count a = s.game.count a := by
  cases h : s.stock.getLast? with
  | none =>
    have hnil : s.stock = [] := List.getLast?_eq_none_iff.mp h
    rw [onStockClick_recycle s hnil]
    simp only [State.game, saveUndoState, Game.count, keyCount_recycle, hnil, keyCount_nil]
    omega
  | some card =>
    rw [onStockClick_draw s card h]
    have h1 := keyCount_dropLast a s.stock card h
    have h2 := keyCount_flag a card true
    simp only [State.game, saveUndoState, Game.count, keyCount_append] at h1 h2 ⊢
    omega

theorem handleTableauDrop_count (s s' : State) (i k j : Nat) (a : Suit × Rank)
    (h : handleTableauDrop s i k j = some s') : s'.game.count a = s.game.count a := by
  rcases handleTableauDrop_shape s s' i k j h with rfl | ⟨sp, tp, hne, hsp, htp, _, rfl⟩
  · rfl
  · have h1 := tableauCount_set a s.tableau i sp (revealTop (sp.take k)) hsp
    have htp' : (s.tableau.set i (revealTop (sp.take k)))[j]? = some tp := by
      rw [getElem?_set_other _ _ hne]; exact htp
    have h2 := tableauCount_set a _ j tp (tp ++ sp.drop k) htp'
    have h3 := keyCount_take_drop a k sp
    rw [keyCount_revealTop] at h1
    rw [keyCount_append] at h2
    simp only [State.game, saveUndoState, Game.count]
    omega

theorem handleWasteDrop_count (s s' : State) (j : Nat) (a : Suit × Rank)
    (h : handleWasteDrop s j = some s') : s'.game.count a = s.game.count a := by
  rcases handleWasteDrop_shape s s' j h with rfl | ⟨card, tp, hw, htp, rfl⟩
  · rfl
  · have h1 := tableauCount_set a s.tableau j tp (tp ++ [card]) htp
    have h2 := keyCount_dropLast a s.waste card hw
    rw [keyCount_append] at h1
    simp only [State.game, saveUndoState, Game.count]
    omega

theorem handleFoundationDrop_count (s s' : State) (suit : Suit) (a : Suit × Rank)
    (h : handleFoundationDrop s suit = some s') : s'.game.count a = s.game.count a := by
  rcases handleFoundationDrop_shape s s' suit h with
    rfl | ⟨card, hw, _, _, rfl⟩ | ⟨p, k, pile, card, hp, hk, hlast, _, _, rfl⟩
  · rfl
  · have h1 := Foundations.count_put s.foundations a suit (s.foundations.get suit ++ [card])
    have h2 := keyCount_dropLast a s.waste card hw
    rw [keyCount_append] at h1
    simp only [State.game, saveUndoState, Game.count]
    omega
  · have h1 := Foundations.count_put s.foundations a suit (s.foundations.get suit ++ [card])
    have h2 := tableauCount_set a s.tableau p pile (revealTop (pile.take k)) hp
    have hl : pile.getLast? = some card := by
      rw [List.getLast?_eq_getElem?, ← hk]
      congr 1
      omega
    have h4 : pile.take k = pile.dropLast := by
      rw [List.dropLast_eq_take]
      congr 1
      omega
    have h3 : keyCount a (pile.take k) + keyCount a [card] = keyCount a pile := by
      rw [h4]
      exact keyCount_dropLast a pile card hl
    rw [keyCount_append] at h1
    rw [keyCount_revealTop] at h2
    simp only [State.game, saveUndoState, Game.count]
    omega

theorem handleFoundationToTableauDrop_count (s s' : State) (suit : Suit) (j : Nat)
    (a : Suit × Rank) (h : handleFoundationToTableauDrop s suit j = some s') :
    s'.game.count a = s.game.count a := by
  rcases handleFoundationToTableauDrop_shape s s' suit j h with rfl | ⟨card, tp, hf, htp, rfl⟩
  · rfl
  · have h1 := Foundations.count_put s.foundations a suit (s.foundations.get suit).dropLast
    have h2 := tableauCount_set a s.tableau j tp (tp ++ [{ card with faceUp := true }]) htp
    have h3 := keyCount_dropLast a (s.foundations.get suit) card hf
    have h4 := keyCount_flag a card true
    rw [keyCount_append] at h2
    simp only [State.game, saveUndoState, Game.count] at h4 ⊢
    omega

/-- A request other than undo keeps, for every suit and rank, the number of cards of that suit
and rank over the four zones. -/
theorem step_count (s : State) (m : Move) (hm : m ≠ Move.undo) (a : Suit × Rank) :
    (step s m).game.count a = s.game.count a := by
  cases m with
  | stockClick => exact onStockClick_count s a
  | tableauDrop i k j =>
    simp only [step]
    cases h : handleTableauDrop s i k j with
    | none => rfl
    | some s' => exact handleTableauDrop_count s s' i k j a h
  | wasteDrop j =>
    simp only [step]
    cases h : handleWasteDrop s j with
    | none => rfl
    | some s' => exact handleWasteDrop_count s s' j a h
  | foundationDrop suit =>
    simp only [step]
    cases h : handleFoundationDrop s suit with
    | none => rfl
    | some s' => exact handleFoundationDrop_count s s' suit a h
  | foundationToTableauDrop suit j =>
    simp only [step]
    cases h : handleFoundationToTableauDrop s suit j with
    | none => rfl
    | some s' => exact handleFoundationToTableauDrop_count s s' suit j a h
  | undo => exact absurd rfl hm
  | select sel => rfl

theorem step_keys_perm (s : State) (m : Move) (hm : m ≠ Move.undo) :
    (step s m).game.keys.Perm s.game.keys :=
  (Game.keys_perm_iff _ _).mpr (step_count s m hm)

theorem step_holdsDeck (s : State) (m : Move) (hs : s.holdsDeck) : (step s m).holdsDeck := by
  by_cases hm : m = Move.undo
  · subst hm
    show (handleUndo s).holdsDeck
    cases hu : s.undoState with
    | none =>
      rw [handleUndo_of_none s hu]
      exact hs
    | some u =>
      obtain ⟨hg, hn⟩ := handleUndo_of_saved s u hu
      refine ⟨?_, ?_⟩
      · rw [hg]
        exact hs.2 u hu
      · intro v hv
        rw [hn] at hv
        cases hv
  · refine ⟨(step_keys_perm s m hm).trans hs.1, ?_⟩
    intro u hu
    rcases step_saved s m hm with h | ⟨_, h⟩
    · rw [h] at hu
      cases hu
      exact hs.1
    · rw [h] at hu
      exact hs.2 u hu

theorem run_holdsDeck (ms : List Move) (s : State) (hs : s.holdsDeck) :
    (run s ms).holdsDeck := by
  induction ms generalizing s with
  | nil => exact hs
  | cons m ms ih => exact ih (step s m) (step_holdsDeck s m hs)

/-! ## The deal keeps the deck -/

theorem tableauCount_concat (a : Suit × Rank) (t : List (List Card)) (p : List Card) :
    tableauCount a (t ++ [p]) = tableauCount a t + keyCount a p := by
  simp [tableauCount]

theorem dealLoop_count (a : Suit × Rank) (n : Nat) :
    ∀ (i : Nat) (deck : List Card) (acc t : List (List Card)) (rest : List Card),
      dealLoop n i deck acc = some (t, rest) →
      tableauCount a t + keyCount a rest = tableauCount a acc + keyCount a deck := by
  induction n with
  | zero =>
    intro i deck acc t rest h
    simp only [dealLoop, Option.some.injEq, Prod.mk.injEq] at h
    rw [h.1, h.2]
  | succ n ih =>
    intro i deck acc t rest h
    simp only [dealLoop] at h
    cases hl : (deck.take (i + 1)).getLast? with
    | none => simp [hl] at h
    | some last =>
      simp only [hl] at h
      have h1 := ih _ _ _ _ _ h
      have h2 := keyCount_dropLast a _ last hl
      have h3 := keyCount_take_drop a (i + 1) deck
      have h4 := keyCount_flag a last true
      rw [tableauCount_concat, keyCount_append] at h1
      omega

theorem dealLoop_isSome (n : Nat) :
    ∀ (i : Nat) (deck : List Card) (acc : List (List Card)),
      n * i + n * n ≤ deck.length → ∃ r, dealLoop n i deck acc = some r := by
  induction n with
  | zero =>
    intro i deck acc _
    exact ⟨_, rfl⟩
  | succ n ih =>
    intro i deck acc hlen
    have hexp : (n + 1) * i + (n + 1) * (n + 1) = n * i + n * n + i + 2 * n + 1 := by ring
    rw [hexp] at hlen
    simp only [dealLoop]
    cases hl : (deck.take (i + 1)).getLast? with
    | none =>
      rw [List.getLast?_eq_none_iff, List.take_eq_nil_iff] at hl
      rcases hl with hl | hl
      · omega
      · rw [hl] at hlen
        simp at hlen
    | some last =>
      apply ih
      have hexp2 : n * (i + 1) + n * n = n * i + n * n + n := by ring
      rw [hexp2, List.length_drop]
      omega

theorem deal_holdsDeck (deck : List Card) (hd : (deck.map cardKey).Perm deckKeys) :
    ∃ s₀, deal deck = some s₀ ∧ s₀.holdsDeck := by
  have hlen : deck.length = 52 := by
    have := hd.length_eq
    rw [List.length_map] at this
    rw [this]
    rfl
  obtain ⟨⟨t, rest⟩, hr⟩ := dealLoop_isSome 7 0 deck [] (by omega)
  refine ⟨{ State.initial with tableau := t, stock := rest }, by simp only [deal, hr], ?_, ?_⟩
  · refine List.Perm.trans ?_ hd
    rw [List.perm_iff_count]
    intro a
    have h1 := dealLoop_count a 7 0 deck [] t rest hr
    have h2 : tableauCount a [] = 0 := rfl
    have h3 : keyCount a deck =
        @List.count (Suit × Rank) instBEqOfDecidableEq a (deck.map cardKey) := rfl
    have h4 : Foundations.empty.count a = 0 := rfl
    rw [Game.count_eq]
    simp only [State.game, State.initial, Game.count, keyCount_nil]
    rw [← h3]
    omega
  · intro u hu
    cases hu

theorem deckKeys_nodup : deckKeys.Nodup := by decide

theorem mem_deckKeys (a : Suit × Rank) : a ∈ deckKeys := by
  obtain ⟨su, r⟩ := a
  cases su <;> cases r <;> decide

/-- C1: in every state reached from the deal of a 52-card deck by a finite sequence of
requests, the tableau, stock, waste and foundations together hold each of the 52 suit and rank
pairs exactly once, and every request (draw or recycle, the four drops, undo), accepted or
rejected, leaves zones that hold exactly the same 52 cards. A request other than undo keeps the
cards of the zones in any state whatever; undo restores the snapshot, which `saveUndoState`
copied from an earlier state of the run. -/
theorem card_conservation :
    (∀ (deck : List Card), (deck.map cardKey).Perm deckKeys →
      ∃ s₀, deal deck = some s₀ ∧
        ∀ (ms : List Move),
          (run s₀ ms).game.holdsDeck ∧ (run s₀ ms).game.keys.Nodup ∧
          (run s₀ ms).game.keys.length = 52 ∧ (∀ a, a ∈ (run s₀ ms).game.keys) ∧
          ∀ (m : Move),
            (step (run s₀ ms) m).game.holdsDeck ∧
            (step (run s₀ ms) m).game.keys.Perm (run s₀ ms).game.keys ∧
            (step (run s₀ ms) m).game.keys.Nodup) ∧
    (∀ (s : State) (m : Move), m ≠ Move.undo → (step s m).game.keys.Perm s.game.keys) ∧
    (∀ (s : State) (m : Move),
      s.game.holdsDeck → (∀ u, s.undoState = some u → u.holdsDeck) →
      (step s m).game.holdsDeck ∧ (∀ u, (step s m).undoState = some u → u.holdsDeck)) := by
  refine ⟨?_, step_keys_perm, fun s m h1 h2 => step_holdsDeck s m ⟨h1, h2⟩⟩
  intro deck hd
  obtain ⟨s₀, h0, hs0⟩ := deal_holdsDeck deck hd
  refine ⟨s₀, h0, fun ms => ?_⟩
  have hinv : (run s₀ ms).holdsDeck := run_holdsDeck ms s₀ hs0
  have hrun : (run s₀ ms).game.keys.Perm deckKeys := hinv.1
  refine ⟨hrun, hrun.nodup_iff.mpr deckKeys_nodup, hrun.length_eq,
    fun a => hrun.mem_iff.mpr (mem_deckKeys a), fun m => ?_⟩
  have hstep : (step (run s₀ ms) m).game.keys.Perm deckKeys :=
    (step_holdsDeck (run s₀ ms) m hinv).1
  exact ⟨hstep, hstep.trans hrun.symm, hstep.nodup_iff.mpr deckKeys_nodup⟩

/-- The deal of the unshuffled deck: after a draw and a drop of the waste card, an undo leaves
the same 52 cards. -/
theorem card_conservation_witness :
    (canonicalDeck.map cardKey).Perm deckKeys ∧
    ∃ s₀, deal canonicalDeck = some s₀ ∧
      (run s₀ [Move.stockClick, Move.wasteDrop 3]).game.holdsDeck ∧
      (step (run s₀ [Move.stockClick, Move.wasteDrop 3]) Move.undo).game.keys.Perm
        (run s₀ [Move.stockClick, Move.wasteDrop 3]).game.keys :=
  ⟨List.Perm.refl _,
    let ⟨s₀, h0, h⟩ := card_conservation.1 canonicalDeck (List.Perm.refl _)
    ⟨s₀, h0, (h _).1, ((h _).2.2.2.2 Move.undo).2.1⟩⟩

/-! ## The deal -/

theorem exists_cons_of_length_succ (l : List Card) (n : Nat) (h : l.length = n + 1) :
    ∃ c d, l = c :: d ∧ d.length = n := by
  cases l with
  | nil => simp at h
  | cons c d => exact ⟨c, d, rfl, by simpa using h⟩

theorem deal_front (c0 c1 c2 c3 c4 c5 c6 c7 c8 c9 c10 c11 c12 c13
    c14 c15 c16 c17 c18 c19 c20 c21 c22 c23 c24 c25 c26 c27 : Card) (rest : List Card) :
    deal (
      c0 :: c1 :: c2 :: c3 :: c4 :: c5 :: c6 :: c7 :: c8 :: c9 :: c10 :: c11 :: c12 :: c13 ::
      c14 :: c15 :: c16 :: c17 :: c18 :: c19 :: c20 :: c21 :: c22 :: c23 :: c24 :: c25 ::
      c26 :: c27 :: rest) =
      some { State.initial with
        tableau :=
          [[{ c0 with faceUp := true }],
           [c1, { c2 with faceUp := true }],
           [c3, c4, { c5 with faceUp := true }],
           [c6, c7, c8, { c9 with faceUp := true }],
           [c10, c11, c12, c13, { c14 with faceUp := true }],
           [c15, c16, c17, c18, c19, { c20 with faceUp := true }],
           [c21, c22, c23, c24, c25, c26, { c27 with faceUp := true }]],
        stock := rest } :=
  rfl

/-- C11: the deal of a deck of 52 face-down cards succeeds and builds seven piles; pile `i`
holds the `i + 1` cards that follow the first `i * (i + 1) / 2` cards of the deck, in order,
with exactly its last card face-up; the piles hold 28 cards; the stock is the deck without its
first 28 cards, 24 cards in order, all face-down. -/
theorem deal_integrity (deck : List Card) (hlen : deck.length = 52)
    (hdown : ∀ c ∈ deck, c.faceUp = false) :
    ∃ s₀, deal deck = some s₀ ∧ s₀.tableau.length = 7 ∧
      (∀ i, i < 7 → ∃ pile, s₀.tableau[i]? = some pile ∧ pile.length = i + 1 ∧
        pile.map cardKey = ((deck.drop (i * (i + 1) / 2)).take (i + 1)).map cardKey ∧
        pile.map Card.faceUp = List.replicate i false ++ [true]) ∧
      (s₀.tableau.map List.length).sum = 28 ∧
      s₀.stock = deck.drop 28 ∧ s₀.stock.length = 24 ∧
      (∀ c ∈ s₀.stock, c.faceUp = false) ∧
      s₀.waste = [] ∧ s₀.foundations = Foundations.empty := by
  obtain ⟨c0, d1, rfl, hl1⟩ := exists_cons_of_length_succ deck 51 hlen
  obtain ⟨c1, d2, rfl, hl2⟩ := exists_cons_of_length_succ d1 50 hl1
  obtain ⟨c2, d3, rfl, hl3⟩ := exists_cons_of_length_succ d2 49 hl2
  obtain ⟨c3, d4, rfl, hl4⟩ := exists_cons_of_length_succ d3 48 hl3
  obtain ⟨c4, d5, rfl, hl5⟩ := exists_cons_of_length_succ d4 47 hl4
  obtain ⟨c5, d6, rfl, hl6⟩ := exists_cons_of_length_succ d5 46 hl5
  obtain ⟨c6, d7, rfl, hl7⟩ := exists_cons_of_length_succ d6 45 hl6
  obtain ⟨c7, d8, rfl, hl8⟩ := exists_cons_of_length_succ d7 44 hl7
  obtain ⟨c8, d9, rfl, hl9⟩ := exists_cons_of_length_succ d8 43 hl8
  obtain ⟨c9, d10, rfl, hl10⟩ := exists_cons_of_length_succ d9 42 hl9
  obtain ⟨c10, d11, rfl, hl11⟩ := exists_cons_of_length_succ d10 41 hl10
  obtain ⟨c11, d12, rfl, hl12⟩ := exists_cons_of_length_succ d11 40 hl11
  obtain ⟨c12, d13, rfl, hl13⟩ := exists_cons_of_length_succ d12 39 hl12
  obtain ⟨c13, d14, rfl, hl14⟩ := exists_cons_of_length_succ d13 38 hl13
  obtain ⟨c14, d15, rfl, hl15⟩ := exists_cons_of_length_succ d14 37 hl14
  obtain ⟨c15, d16, rfl, hl16⟩ := exists_cons_of_length_succ d15 36 hl15
  obtain ⟨c16, d17, rfl, hl17⟩ := exists_cons_of_length_succ d16 35 hl16
  obtain ⟨c17, d18, rfl, hl18⟩ := exists_cons_of_length_succ d17 34 hl17
  obtain ⟨c18, d19, rfl, hl19⟩ := exists_cons_of_length_succ d18 33 hl18
  obtain ⟨c19, d20, rfl, hl20⟩ := exists_cons_of_length_succ d19 32 hl19
  obtain ⟨c20, d21, rfl, hl21⟩ := exists_cons_of_length_succ d20 31 hl20
  obtain ⟨c21, d22, rfl, hl22⟩ := exists_cons_of_length_succ d21 30 hl21
  obtain ⟨c22, d23, rfl, hl23⟩ := exists_cons_of_length_succ d22 29 hl22
  obtain ⟨c23, d24, rfl, hl24⟩ := exists_cons_of_length_succ d23 28 hl23
  obtain ⟨c24, d25, rfl, hl25⟩ := exists_cons_of_length_succ d24 27 hl24
  obtain ⟨c25, d26, rfl, hl26⟩ := exists_cons_of_length_succ d25 26 hl25
  obtain ⟨c26, d27, rfl, hl27⟩ := exists_cons_of_length_succ d26 25 hl26
  obtain ⟨c27, d28, rfl, hl28⟩ := exists_cons_of_length_succ d27 24 hl27
  have f0 : c0.faceUp = false := hdown c0 (by simp)
  have f1 : c1.faceUp = false := hdown c1 (by simp)
  have f2 : c2.faceUp = false := hdown c2 (by simp)
  have f3 : c3.faceUp = false := hdown c3 (by simp)
  have f4 : c4.faceUp = false := hdown c4 (by simp)
  have f5 : c5.faceUp = false := hdown c5 (by simp)
  have f6 : c6.faceUp = false := hdown c6 (by simp)
  have f7 : c7.faceUp = false := hdown c7 (by simp)
  have f8 : c8.faceUp = false := hdown c8 (by simp)
  have f9 : c9.faceUp = false := hdown c9 (by simp)
  have f10 : c10.faceUp = false := hdown c10 (by simp)
  have f11 : c11.faceUp = false := hdown c11 (by simp)
  have f12 : c12.faceUp = false := hdown c12 (by simp)
  have f13 : c13.faceUp = false := hdown c13 (by simp)
  have f14 : c14.faceUp = false := hdown c14 (by simp)
  have f15 : c15.faceUp = false := hdown c15 (by simp)
  have f16 : c16.faceUp = false := hdown c16 (by simp)
  have f17 : c17.faceUp = false := hdown c17 (by simp)
  have f18 : c18.faceUp = false := hdown c18 (by simp)
  have f19 : c19.faceUp = false := hdown c19 (by simp)
  have f20 : c20.faceUp = false := hdown c20 (by simp)
  have f21 : c21.faceUp = false := hdown c21 (by simp)
  have f22 : c22.faceUp = false := hdown c22 (by simp)
  have f23 : c23.faceUp = false := hdown c23 (by simp)
  have f24 : c24.faceUp = false := hdown c24 (by simp)
  have f25 : c25.faceUp = false := hdown c25 (by simp)
  have f26 : c26.faceUp = false := hdown c26 (by simp)
  have f27 : c27.faceUp = false := hdown c27 (by simp)
  rw [deal_front]
  refine ⟨_, rfl, rfl, ?_, rfl, rfl, hl28, ?_, rfl, rfl⟩
  · intro i hi
    interval_cases i
    all_goals
      refine ⟨_, rfl, rfl, rfl, ?_⟩
      simp [f0, f1, f2, f3, f4, f5, f6, f7, f8, f9, f10, f11, f12, f13, f14, f15, f16, f17, f18,
        f19, f20, f21, f22, f23, f24, f25, f26, f27]
  · intro c hc
    exact hdown c (by simp [show c ∈ d28 from hc])

/-- The deal of the unshuffled deck: 52 cards, all face-down. -/
theorem deal_integrity_witness :
    canonicalDeck.length = 52 ∧ (∀ c ∈ canonicalDeck, c.faceUp = false) ∧
    ∃ s₀, deal canonicalDeck = some s₀ ∧ s₀.tableau.length = 7 ∧ s₀.stock.length = 24 :=
  ⟨rfl, by decide,
    let ⟨s₀, h0, h7, _, _, _, h24, _⟩ := deal_integrity canonicalDeck rfl (by decide)
    ⟨s₀, h0, h7, h24⟩⟩

/-! ## The deck -/

theorem randomInsert_perm (cmp : Nat → Bool) (x : Card) (l : List Card) :
    ∀ k, (randomInsert cmp x l k).1.Perm (x :: l) := by
  induction l with
  | nil => intro k; exact List.Perm.refl _
  | cons y ys ih =>
    intro k
    simp only [randomInsert]
    split
    · exact List.Perm.refl _
    · exact ((ih (k + 1)).cons y).trans (List.Perm.swap x y ys)

theorem randomSort_perm (cmp : Nat → Bool) (l : List Card) :
    ∀ k, (randomSort cmp l k).1.Perm l := by
  induction l with
  | nil => intro k; exact List.Perm.refl _
  | cons x xs ih =>
    intro k
    simp only [randomSort]
    exact (randomInsert_perm cmp x _ _).trans ((ih k).cons x)

theorem keyCount_deck (a : Suit × Rank) : keyCount a canonicalDeck = 1 :=
  List.count_eq_one_of_mem deckKeys_nodup (mem_deckKeys a)

theorem canonicalDeck_faceDown : ∀ c ∈ canonicalDeck, c.faceUp = false := by decide

theorem shuffled_deck (d : List Card) (h : d.Perm canonicalDeck) :
    d.length = 52 ∧ (d.map cardKey).Perm deckKeys ∧ (∀ a, keyCount a d = 1) ∧
      ∀ c ∈ d, c.faceUp = false := by
  refine ⟨h.length_eq, h.map cardKey, ?_, ?_⟩
  · intro a
    rw [← keyCount_deck a]
    exact (h.map cardKey).count_eq a
  · intro c hc
    exact canonicalDeck_faceDown c (h.mem_iff.mp hc)

/-- C12: whatever rearrangement the sort produces, and so whatever the random comparator
returns, `generateDeck` gives 52 cards whose suit and rank pairs are a permutation of the 4 x 13
pairs of `suits` and `ranks`, each pair exactly once, every card face-down. -/
theorem generateDeck_integrity :
    (∀ (sort : List Card → List Card), (∀ l, (sort l).Perm l) →
      (generateDeck sort).length = 52 ∧
      ((generateDeck sort).map cardKey).Perm deckKeys ∧
      (∀ a, keyCount a (generateDeck sort) = 1) ∧
      ∀ c ∈ generateDeck sort, c.faceUp = false) ∧
    (∀ (cmp : Nat → Bool),
      (generateDeck fun l => (randomSort cmp l 0).1).length = 52 ∧
      ((generateDeck fun l => (randomSort cmp l 0).1).map cardKey).Perm deckKeys ∧
      (∀ a, keyCount a (generateDeck fun l => (randomSort cmp l 0).1) = 1) ∧
      ∀ c ∈ generateDeck fun l => (randomSort cmp l 0).1, c.faceUp = false) ∧
    deckKeys = suits.flatMap (fun suit => ranks.map fun rank => (suit, rank)) ∧
    deckKeys.length = 4 * 13 ∧ deckKeys.Nodup := by
  refine ⟨fun sort h => shuffled_deck _ (h _), fun cmp => shuffled_deck _ (randomSort_perm cmp _ 0),
    rfl, rfl, deckKeys_nodup⟩

/-- The sort that reverses its input, and the insertion sort whose comparator answers
"negative" on every other call. -/
theorem generateDeck_integrity_witness :
    (∀ l : List Card, l.reverse.Perm l) ∧
    (generateDeck List.reverse).length = 52 ∧
    (∀ a, keyCount a (generateDeck fun l => (randomSort (fun k => k % 2 == 0) l 0).1) = 1) :=
  ⟨fun l => List.reverse_perm l,
    (generateDeck_integrity.1 List.reverse (fun l => List.reverse_perm l)).1,
    (generateDeck_integrity.2.1 (fun k => k % 2 == 0)).2.2.1⟩

/-! ## The win -/

/-- C13: `hasWon` is true exactly when each of the four foundation piles has length 13; with
lengths 13, 13, 13, 12 it is false. -/
theorem hasWon_iff :
    (∀ (f : Foundations),
      hasWon f = true ↔
        f.hearts.length = 13 ∧ f.diamonds.length = 13 ∧ f.clubs.length = 13 ∧
          f.spades.length = 13) ∧
    (∀ (f : Foundations),
      f.hearts.length = 13 → f.diamonds.length = 13 → f.clubs.length = 13 →
      f.spades.length = 12 → hasWon f = false) ∧
    (∀ (f : Foundations),
      (f.hearts.length < 13 ∨ f.diamonds.length < 13 ∨ f.clubs.length < 13 ∨
        f.spades.length < 13) → hasWon f = false) ∧
    hasWon exAlmostWon = false ∧ hasWon exWon = true ∧ hasWon Foundations.empty = false := by
  have hiff : ∀ (f : Foundations),
      hasWon f = true ↔
        f.hearts.length = 13 ∧ f.diamonds.length = 13 ∧ f.clubs.length = 13 ∧
          f.spades.length = 13 := by
    intro f
    simp [hasWon, nat_beq]
  refine ⟨hiff, ?_, ?_, by decide, by decide, by decide⟩
  · intro f h1 h2 h3 h4
    rw [← Bool.not_eq_true, hiff]
    omega
  · intro f h
    rw [← Bool.not_eq_true, hiff]
    omega

/-- The foundations of `exAlmostWon` have lengths 13, 13, 13 and 12. -/
theorem hasWon_iff_witness :
    exAlmostWon.hearts.length = 13 ∧ exAlmostWon.diamonds.length = 13 ∧
    exAlmostWon.clubs.length = 13 ∧ exAlmostWon.spades.length = 12 ∧
    hasWon exAlmostWon = false :=
  ⟨rfl, rfl, rfl, rfl, hasWon_iff.2.1 exAlmostWon rfl rfl rfl rfl⟩

/-! ## Waste to tableau -/

theorem handleWasteDrop_nil (s : State) (tgt : Nat) (h : s.waste = []) :
    handleWasteDrop s tgt = some s := by
  simp [handleWasteDrop, h]

/-- C14: for a pile `tgt` of the tableau, `handleWasteDrop tgt` returns a state that differs
from the old one exactly when the waste is not empty and `canPlaceOnTableau` accepts its top
card on the top of the target pile (or `null`); then that one card leaves the end of the waste
and is appended to the target pile, and the other piles, the stock and the foundations are as
before; otherwise the state is returned unchanged. -/
theorem handleWasteDrop_spec :
    (∀ (s : State) (tgt : Nat) (tp : List Card) (card : Card),
      s.waste.getLast? = some card → s.tableau[tgt]? = some tp →
      ∃ s', handleWasteDrop s tgt = some s' ∧
        (s'.game ≠ s.game ↔ canPlaceOnTableau card tp.getLast? = true) ∧
        (s' ≠ s ↔ canPlaceOnTableau card tp.getLast? = true) ∧
        (canPlaceOnTableau card tp.getLast? = true →
          s.waste = s'.waste ++ [card] ∧
          s'.tableau[tgt]? = some (tp ++ [card]) ∧
          s'.tableau.length = s.tableau.length ∧
          (∀ j, j ≠ tgt → s'.tableau[j]? = s.tableau[j]?) ∧
          s'.stock = s.stock ∧ s'.foundations = s.foundations) ∧
        (canPlaceOnTableau card tp.getLast? = false → s' = s)) ∧
    (∀ (s : State) (tgt : Nat), s.waste = [] → handleWasteDrop s tgt = some s) := by
  refine ⟨?_, handleWasteDrop_nil⟩
  intro s tgt tp card hw htgt
  rw [handleWasteDrop_eq s tgt tp card hw htgt]
  have hwaste : s.waste = s.waste.dropLast ++ [card] :=
    (List.dropLast_append_getLast? card hw).symm
  cases hc : canPlaceOnTableau card tp.getLast? with
  | false => exact ⟨s, by simp, by simp, by simp, by simp, by simp⟩
  | true =>
    rw [if_pos rfl]
    have hlen : ({ saveUndoState s with
        tableau := s.tableau.set tgt (tp ++ [card]),
        waste := s.waste.dropLast } : State).waste.length ≠ s.waste.length := by
      show s.waste.dropLast.length ≠ s.waste.length
      have := congrArg List.length hwaste
      simp only [List.length_append, List.length_singleton] at this
      omega
    refine ⟨_, rfl, ?_, ?_, ?_, by simp⟩
    · have hgame : ({ saveUndoState s with
          tableau := s.tableau.set tgt (tp ++ [card]),
          waste := s.waste.dropLast } : State).game ≠ s.game :=
        fun h => hlen (congrArg (fun g => (Game.waste g).length) h)
      simpa using hgame
    · have hst : ({ saveUndoState s with
          tableau := s.tableau.set tgt (tp ++ [card]),
          waste := s.waste.dropLast } : State) ≠ s :=
        fun h => hlen (congrArg (fun g => (State.waste g).length) h)
      simpa using hst
    · intro _
      refine ⟨hwaste, getElem?_set_self_of _ htgt, by simp [saveUndoState], ?_, rfl, rfl⟩
      intro j hj
      exact getElem?_set_other _ _ (Ne.symm hj)

/-- The Queen of hearts of `exWasteQueen` dropped on the King of spades. -/
theorem handleWasteDrop_spec_witness :
    exWasteQueen.waste.getLast? = some ⟨Suit.hearts, Rank.Q, true⟩ ∧
    exWasteQueen.tableau[1]? = some [⟨Suit.spades, Rank.K, true⟩] ∧
    ∃ s', handleWasteDrop exWasteQueen 1 = some s' ∧
      (s'.game ≠ exWasteQueen.game ↔
        canPlaceOnTableau ⟨Suit.hearts, Rank.Q, true⟩
          [(⟨Suit.spades, Rank.K, true⟩ : Card)].getLast? = true) :=
  ⟨rfl, rfl,
    let ⟨s', h1, h2, _⟩ := handleWasteDrop_spec.1 exWasteQueen 1 _ _ rfl rfl
    ⟨s', h1, h2⟩⟩

/-! ## Foundation to tableau -/

theorem handleFoundationToTableauDrop_nil (s : State) (suit : Suit) (tgt : Nat)
    (h : s.foundations.get suit = []) : handleFoundationToTableauDrop s suit tgt = some s := by
  simp [handleFoundationToTableauDrop, h]

/-- C15: for a pile `tgt` of the tableau, `handleFoundationToTableauDrop suit tgt` returns a
state that differs from the old one exactly when `foundations[suit]` is not empty and
`canPlaceOnTableau` accepts its top card on the top of the target pile (or `null`); then that
card leaves the end of `foundations[suit]` and is appended face-up to the target pile, and the
other foundations, the other piles, the stock and the waste are as before; with an empty
foundation or an illegal target the state is returned unchanged. -/
theorem handleFoundationToTableauDrop_spec :
    (∀ (s : State) (suit : Suit) (tgt : Nat) (tp : List Card) (card : Card),
      (s.foundations.get suit).getLast? = some card → s.tableau[tgt]? = some tp →
      ∃ s', handleFoundationToTableauDrop s suit tgt = some s' ∧
        (s'.game ≠ s.game ↔ canPlaceOnTableau card tp.getLast? = true) ∧
        (s' ≠ s ↔ canPlaceOnTableau card tp.getLast? = true) ∧
        (canPlaceOnTableau card tp.getLast? = true →
          s.foundations.get suit = s'.foundations.get suit ++ [card] ∧
          s'.tableau[tgt]? = some (tp ++ [⟨card.suit, card.rank, true⟩]) ∧
          (∀ t, t ≠ suit → s'.foundations.get t = s.foundations.get t) ∧
          s'.tableau.length = s.tableau.length ∧
          (∀ j, j ≠ tgt → s'.tableau[j]? = s.tableau[j]?) ∧
          s'.stock = s.stock ∧ s'.waste = s.waste) ∧
        (canPlaceOnTableau card tp.getLast? = false → s' = s)) ∧
    (∀ (s : State) (suit : Suit) (tgt : Nat),
      s.foundations.get suit = [] → handleFoundationToTableauDrop s suit tgt = some s) := by
  refine ⟨?_, handleFoundationToTableauDrop_nil⟩
  intro s suit tgt tp card hf htgt
  rw [handleFoundationToTableauDrop_eq s suit tgt tp card hf htgt]
  have hpile : s.foundations.get suit = (s.foundations.get suit).dropLast ++ [card] :=
    (List.dropLast_append_getLast? card hf).symm
  cases hc : canPlaceOnTableau card tp.getLast? with
  | false => exact ⟨s, by simp, by simp, by simp, by simp, by simp⟩
  | true =>
    rw [if_pos rfl]
    have hlen : (({ saveUndoState s with
        foundations := s.foundations.put suit (s.foundations.get suit).dropLast,
        tableau := s.tableau.set tgt (tp ++ [{ card with faceUp := true }]) } :
          State).foundations.get suit).length ≠ (s.foundations.get suit).length := by
      show ((s.foundations.put suit (s.foundations.get suit).dropLast).get suit).length ≠ _
      rw [Foundations.get_put_self]
      have := congrArg List.length hpile
      simp only [List.length_append, List.length_singleton] at this
      omega
    refine ⟨_, rfl, ?_, ?_, ?_, by simp⟩
    · have hgame : ({ saveUndoState s with
          foundations := s.foundations.put suit (s.foundations.get suit).dropLast,
          tableau := s.tableau.set tgt (tp ++ [{ card with faceUp := true }]) } :
            State).game ≠ s.game :=
        fun h => hlen (congrArg (fun g => ((Game.foundations g).get suit).length) h)
      simpa using hgame
    · have hst : ({ saveUndoState s with
          foundations := s.foundations.put suit (s.foundations.get suit).dropLast,
          tableau := s.tableau.set tgt (tp ++ [{ card with faceUp := true }]) } :
            State) ≠ s :=
        fun h => hlen (congrArg (fun g => ((State.foundations g).get suit).length) h)
      simpa using hst
    · intro _
      refine ⟨?_, getElem?_set_self_of _ htgt, ?_, by simp [saveUndoState], ?_, rfl, rfl⟩
      · show s.foundations.get suit =
          (s.foundations.put suit (s.foundations.get suit).dropLast).get suit ++ [card]
        rw [Foundations.get_put_self]
        exact hpile
      · intro t ht
        exact Foundations.get_put_other _ _ ht
      · intro j hj
        exact getElem?_set_other _ _ (Ne.symm hj)

/-- The 2 of hearts of `exFoundationTwo` dropped back on the 3 of spades. -/
theorem handleFoundationToTableauDrop_spec_witness :
    (exFoundationTwo.foundations.get Suit.hearts).getLast? =
      some ⟨Suit.hearts, Rank.r2, true⟩ ∧
    exFoundationTwo.tableau[0]? =
      some [⟨Suit.diamonds, Rank.r7, false⟩, ⟨Suit.spades, Rank.r3, true⟩] ∧
    ∃ s', handleFoundationToTableauDrop exFoundationTwo Suit.hearts 0 = some s' ∧
      (s'.game ≠ exFoundationTwo.game ↔
        canPlaceOnTableau ⟨Suit.hearts, Rank.r2, true⟩
          [(⟨Suit.diamonds, Rank.r7, false⟩ : Card), ⟨Suit.spades, Rank.r3, true⟩].getLast? =
            true) :=
  ⟨rfl, rfl,
    let ⟨s', h1, h2, _⟩ :=
      handleFoundationToTableauDrop_spec.1 exFoundationTwo Suit.hearts 0 _ _ rfl rfl
    ⟨s', h1, h2⟩⟩

/-! ## Requests with an empty source -/

/-- C16: the code fails where the claim asks for a silent no-op. With seven piles and pile 0
empty, `handleTableauDrop(0, 0, 1)` throws (no result), and so does a card index at the end of
a non-empty source pile, and so does `handleFoundationDrop` with the empty pile selected; the
handlers whose source is the waste or a foundation do return the state unchanged when that
source is empty. -/
theorem empty_source_throws :
    exEmptySource.tableau.length = 7 ∧
    exEmptySource.tableau[0]? = some [] ∧
    handleTableauDrop exEmptySource 0 0 1 = none ∧
    exEmptySource.tableau[1]? = some [⟨Suit.hearts, Rank.Q, true⟩] ∧
    handleTableauDrop exEmptySource 1 1 2 = none ∧
    exEmptySource.selection = some (Selection.tableau 0 0) ∧
    handleFoundationDrop exEmptySource Suit.hearts = none ∧
    handleWasteDrop exEmptySource 1 = some exEmptySource ∧
    handleFoundationToTableauDrop exEmptySource Suit.hearts 1 = some exEmptySource := by
  decide

/-! ## The snapshot after a click on an empty stock -/

/-- C17: the code fails on the draw with stock and waste both empty. In `exBothEmpty` the
snapshot holds the zones before the last move; a click on the stock changes no zone, yet it
replaces the snapshot by the current zones, so the undo that follows gives back the current
zones and the zones before the last move are lost. The state `exBothEmpty` is what the drop
of the last waste card leaves. -/
theorem stock_click_overwrites_snapshot :
    (handleWasteDrop exLastWasteCard 0).map (fun s => step s (Move.select none)) =
      some exBothEmpty ∧
    exBothEmpty.stock = [] ∧ exBothEmpty.waste = [] ∧
    exBothEmpty.undoState = some exBeforeLastMove ∧
    (handleUndo exBothEmpty).game = exBeforeLastMove ∧
    (onStockClick exBothEmpty).game = exBothEmpty.game ∧
    (onStockClick exBothEmpty).undoState = some exBothEmpty.game ∧
    (onStockClick exBothEmpty).undoState ≠ exBothEmpty.undoState ∧
    (handleUndo (onStockClick exBothEmpty)).game = exBothEmpty.game ∧
    (handleUndo (onStockClick exBothEmpty)).game ≠ exBeforeLastMove := by
  decide

/-! ## Invariants of the zones along a run -/

/-- A property of the zones that every request other than undo preserves holds along every
run, for the zones and for the stored snapshot. -/
theorem run_invariant (P : Game → Prop)
    (hP : ∀ (s : State) (m : Move), m ≠ Move.undo → P s.game → P (step s m).game)
    (ms : List Move) :
    ∀ (s : State), P s.game → (∀ u, s.undoState = some u → P u) →
      P (run s ms).game ∧ ∀ u, (run s ms).undoState = some u → P u := by
  induction ms with
  | nil => intro s hs hu; exact ⟨hs, hu⟩
  | cons m ms ih =>
    intro s hs hu
    apply ih (step s m)
    · by_cases hm : m = Move.undo
      · subst hm
        show P (handleUndo s).game
        cases hsu : s.undoState with
        | none => rw [handleUndo_of_none s hsu]; exact hs
        | some u => rw [(handleUndo_of_saved s u hsu).1]; exact hu u hsu
      · exact hP s m hm hs
    · intro u hsu
      by_cases hm : m = Move.undo
      · subst hm
        have hn : (handleUndo s).undoState = none := handleUndo_undoState s
        have hsu' : (handleUndo s).undoState = some u := hsu
        rw [hn] at hsu'
        cases hsu'
      · rcases step_saved s m hm with h | ⟨_, h⟩
        · rw [h] at hsu
          cases hsu
          exact hs
        · rw [h] at hsu
          exact hu u hsu

/-! ## Stock face-down, waste face-up -/

theorem onStockClick_oriented (s : State) (hs : s.game.oriented) :
    (onStockClick s).game.oriented := by
  cases h : s.stock.getLast? with
  | none =>
    rw [onStockClick_recycle s (List.getLast?_eq_none_iff.mp h)]
    refine ⟨?_, ?_⟩
    · intro c hc
      simp only [State.game, List.mem_reverse, List.mem_map] at hc
      obtain ⟨d, _, rfl⟩ := hc
      rfl
    · intro c hc
      simp [State.game] at hc
  | some card =>
    rw [onStockClick_draw s card h]
    refine ⟨?_, ?_⟩
    · intro c hc
      exact hs.1 c (List.mem_of_mem_dropLast hc)
    · intro c hc
      simp only [State.game, List.mem_append, List.mem_singleton] at hc
      rcases hc with hc | rfl
      · exact hs.2 c hc
      · rfl

theorem oriented_dropLast (s : State) (hs : s.game.oriented) :
    ∀ c ∈ s.waste.dropLast, c.faceUp = true :=
  fun c hc => hs.2 c (List.mem_of_mem_dropLast hc)

theorem step_oriented (s : State) (m : Move) (hm : m ≠ Move.undo) (hs : s.game.oriented) :
    (step s m).game.oriented := by
  cases m with
  | stockClick => exact onStockClick_oriented s hs
  | tableauDrop a k b =>
    simp only [step]
    cases h : handleTableauDrop s a k b with
    | none => exact hs
    | some s' =>
      rcases handleTableauDrop_shape s s' a k b h with rfl | ⟨sp, tp, _, _, _, _, rfl⟩
      · exact hs
      · exact hs
  | wasteDrop b =>
    simp only [step]
    cases h : handleWasteDrop s b with
    | none => exact hs
    | some s' =>
      rcases handleWasteDrop_shape s s' b h with rfl | ⟨card, tp, _, _, rfl⟩
      · exact hs
      · exact ⟨hs.1, oriented_dropLast s hs⟩
  | foundationDrop suit =>
    simp only [step]
    cases h : handleFoundationDrop s suit with
    | none => exact hs
    | some s' =>
      rcases handleFoundationDrop_shape s s' suit h with
        rfl | ⟨card, _, _, _, rfl⟩ | ⟨p, k, pile, card, _, _, _, _, _, rfl⟩
      · exact hs
      · exact ⟨hs.1, oriented_dropLast s hs⟩
      · exact hs
  | foundationToTableauDrop suit b =>
    simp only [step]
    cases h : handleFoundationToTableauDrop s suit b with
    | none => exact hs
    | some s' =>
      rcases handleFoundationToTableauDrop_shape s s' suit b h with rfl | ⟨card, tp, _, _, rfl⟩
      · exact hs
      · exact hs
  | undo => exact absurd rfl hm
  | select sel => exact hs

theorem dealLoop_rest_mem (n : Nat) :
    ∀ (i : Nat) (deck : List Card) (acc t : List (List Card)) (rest : List Card),
      dealLoop n i deck acc = some (t, rest) → ∀ c ∈ rest, c ∈ deck := by
  induction n with
  | zero =>
    intro i deck acc t rest h c hc
    simp only [dealLoop, Option.some.injEq, Prod.mk.injEq] at h
    rw [h.2]
    exact hc
  | succ n ih =>
    intro i deck acc t rest h c hc
    simp only [dealLoop] at h
    cases hl : (deck.take (i + 1)).getLast? with
    | none => simp [hl] at h
    | some last =>
      simp only [hl] at h
      exact List.mem_of_mem_drop (ih _ _ _ _ _ h c hc)

/-- C19: in every state reached from the deal of a face-down deck by any sequence of requests
(undo included), every card of the stock is face-down and every card of the waste is
face-up. -/
theorem stock_waste_orientation (deck : List Card) (hdown : ∀ c ∈ deck, c.faceUp = false)
    (s₀ : State) (h : deal deck = some s₀) (ms : List Move) :
    (∀ c ∈ (run s₀ ms).stock, c.faceUp = false) ∧
    (∀ c ∈ (run s₀ ms).waste, c.faceUp = true) := by
  obtain ⟨_, hw, hu, _, hloop⟩ := deal_fresh deck s₀ h
  have h0 : s₀.game.oriented := by
    refine ⟨fun c hc => hdown c (dealLoop_rest_mem 7 0 deck [] _ _ hloop c hc), ?_⟩
    intro c hc
    have hc' : c ∈ s₀.waste := hc
    rw [hw] at hc'
    cases hc'
  have hu0 : ∀ u, s₀.undoState = some u → u.oriented := by
    intro u hsu
    rw [hu] at hsu
    cases hsu
  exact (run_invariant Game.oriented step_oriented ms s₀ h0 hu0).1

/-- The deal of the unshuffled deck followed by two draws, a drop of the waste card, an undo
and a recycle attempt. -/
theorem stock_waste_orientation_witness :
    (∀ c ∈ canonicalDeck, c.faceUp = false) ∧ deal canonicalDeck = some exDealt ∧
    (∀ c ∈ (run exDealt [Move.stockClick, Move.stockClick, Move.wasteDrop 2, Move.undo,
        Move.stockClick]).waste, c.faceUp = true) :=
  ⟨by decide, by decide,
    (stock_waste_orientation canonicalDeck (by decide) exDealt (by decide) _).2⟩

/-! ## A full pass through the stock -/

theorem onStockClick_draw_concat (s : State) (a : List Card) (c : Card)
    (h : s.stock = a ++ [c]) :
    (onStockClick s).stock = a ∧ (onStockClick s).waste = s.waste ++ [⟨c.suit, c.rank, true⟩] ∧
      (onStockClick s).tableau = s.tableau ∧ (onStockClick s).foundations = s.foundations := by
  have hl : s.stock.getLast? = some c := by rw [h, List.getLast?_concat]
  rw [onStockClick_draw s c hl]
  refine ⟨?_, rfl, rfl, rfl⟩
  show s.stock.dropLast = a
  rw [h, List.dropLast_concat]

theorem draws (b : List Card) :
    ∀ (a : List Card) (s : State), s.stock = a ++ b →
      (onStockClick^[b.length] s).stock = a ∧
      (onStockClick^[b.length] s).waste =
        s.waste ++ b.reverse.map (fun c => ⟨c.suit, c.rank, true⟩) ∧
      (onStockClick^[b.length] s).tableau = s.tableau ∧
      (onStockClick^[b.length] s).foundations = s.foundations := by
  induction b using List.reverseRecOn with
  | nil =>
    intro a s h
    simp only [List.append_nil] at h
    simp [h]
  | append_singleton b c ih =>
    intro a s h
    rw [← List.append_assoc] at h
    obtain ⟨h1, h2, h3, h4⟩ := onStockClick_draw_concat s (a ++ b) c h
    obtain ⟨i1, i2, i3, i4⟩ := ih a (onStockClick s) h1
    rw [List.length_append, List.length_singleton, Function.iterate_succ_apply]
    refine ⟨i1, ?_, i3.trans h3, i4.trans h4⟩
    rw [i2, h2]
    simp

theorem map_faceDown_of_faceDown (b : List Card) (h : ∀ c ∈ b, c.faceUp = false) :
    b.map (fun c => ({ c with faceUp := false } : Card)) = b := by
  induction b with
  | nil => rfl
  | cons c b ih =>
    have hc : c.faceUp = false := h c (List.mem_cons_self _ _)
    have hb : ∀ d ∈ b, d.faceUp = false := fun d hd => h d (List.mem_cons_of_mem _ hd)
    rw [List.map_cons, ih hb]
    congr 1
    obtain ⟨cs, cr, cf⟩ := c
    simp only at hc
    rw [hc]

theorem onStockClick_game_congr (s t : State) (h : s.game = t.game) :
    (onStockClick s).game = (onStockClick t).game := by
  have hs : s.stock = t.stock := congrArg Game.stock h
  have hw : s.waste = t.waste := congrArg Game.waste h
  have ht : s.tableau = t.tableau := congrArg Game.tableau h
  have hf : s.foundations = t.foundations := congrArg Game.foundations h
  unfold onStockClick
  rw [hs]
  split <;> simp [State.game, saveUndoState, hw, ht, hf]

theorem iterate_onStockClick_game_congr (k : Nat) :
    ∀ (s t : State), s.game = t.game → (onStockClick^[k] s).game = (onStockClick^[k] t).game := by
  induction k with
  | zero => intro s t h; exact h
  | succ k ih =>
    intro s t h
    rw [Function.iterate_succ_apply, Function.iterate_succ_apply]
    exact ih _ _ (onStockClick_game_congr s t h)

/-- C20: from a state with an empty waste and a stock of `n` face-down cards, `n` clicks on
the stock leave an empty stock and the `n` cards face-up on the waste in drawing order, and the
next click gives back the original stock, in the same order and face-down, with an empty waste
and the tableau and foundations untouched; every later click then gives the zones it gave one
pass earlier. -/
theorem draw_recycle_round_trip (s : State) (hw : s.waste = [])
    (hdown : ∀ c ∈ s.stock, c.faceUp = false) :
    (onStockClick^[s.stock.length] s).stock = [] ∧
    (onStockClick^[s.stock.length] s).waste =
      s.stock.reverse.map (fun c => ⟨c.suit, c.rank, true⟩) ∧
    (onStockClick^[s.stock.length + 1] s).stock = s.stock ∧
    (∀ c ∈ (onStockClick^[s.stock.length + 1] s).stock, c.faceUp = false) ∧
    (onStockClick^[s.stock.length + 1] s).waste = [] ∧
    (onStockClick^[s.stock.length + 1] s).tableau = s.tableau ∧
    (onStockClick^[s.stock.length + 1] s).foundations = s.foundations ∧
    (∀ k, (onStockClick^[k] (onStockClick^[s.stock.length + 1] s)).game =
      (onStockClick^[k] s).game) := by
  obtain ⟨h1, h2, h3, h4⟩ := draws s.stock [] s (List.nil_append _).symm
  rw [hw, List.nil_append] at h2
  have hrec := onStockClick_recycle _ h1
  have hstock : (onStockClick^[s.stock.length + 1] s).stock = s.stock := by
    rw [Function.iterate_succ_apply', hrec]
    show ((onStockClick^[s.stock.length] s).waste.map
      fun card => ({ card with faceUp := false } : Card)).reverse = s.stock
    rw [h2, List.map_map, ← List.map_reverse, List.reverse_reverse]
    exact map_faceDown_of_faceDown s.stock hdown
  have hwaste : (onStockClick^[s.stock.length + 1] s).waste = [] := by
    rw [Function.iterate_succ_apply', hrec]
  have htab : (onStockClick^[s.stock.length + 1] s).tableau = s.tableau := by
    rw [Function.iterate_succ_apply', hrec]
    exact h3
  have hfound : (onStockClick^[s.stock.length + 1] s).foundations = s.foundations := by
    rw [Function.iterate_succ_apply', hrec]
    exact h4
  refine ⟨h1, h2, hstock, ?_, hwaste, htab, hfound, ?_⟩
  · intro c hc
    rw [hstock] at hc
    exact hdown c hc
  · intro k
    apply iterate_onStockClick_game_congr
    simp only [State.game, hstock, hwaste, htab, hfound, hw]

/-- A pass through the two-card stock of a state with an empty waste. -/
theorem draw_recycle_round_trip_witness :
    ({ exStock with waste := [] } : State).waste = [] ∧
    (∀ c ∈ ({ exStock with waste := [] } : State).stock, c.faceUp = false) ∧
    (onStockClick^[2 + 1] { exStock with waste := [] }).stock = exStock.stock ∧
    (onStockClick^[2 + 1] { exStock with waste := [] }).waste = [] :=
  ⟨rfl, by decide,
    (draw_recycle_round_trip { exStock with waste := [] } rfl (by decide)).2.2.1,
    (draw_recycle_round_trip { exStock with waste := [] } rfl (by decide)).2.2.2.2.1⟩

/-! ## Face-up runs of the tableau -/

theorem faceUpRun_take (k : Nat) (p : List Card) (h : faceUpRun p) : faceUpRun (p.take k) :=
  List.Pairwise.sublist (List.take_sublist k p) h

theorem faceUpRun_drop (k : Nat) (p : List Card) (h : faceUpRun p) : faceUpRun (p.drop k) :=
  List.Pairwise.sublist (List.drop_sublist k p) h

theorem faceUpRun_append_up (p m : List Card) (hp : faceUpRun p) (hm : ∀ c ∈ m, c.faceUp = true) :
    faceUpRun (p ++ m) := by
  refine List.pairwise_append.mpr ⟨hp, ?_, fun a _ b hb _ => hm b hb⟩
  exact List.pairwise_of_forall_mem_list fun a _ b hb _ => hm b hb

theorem faceUpRun_revealTop (p : List Card) (h : faceUpRun p) : faceUpRun (revealTop p) := by
  rcases List.eq_nil_or_concat p with rfl | ⟨q, d, rfl⟩
  · exact h
  · rw [List.concat_eq_append] at h ⊢
    rw [revealTop_concat]
    refine faceUpRun_append_up q _ (List.pairwise_append.mp h).1 ?_
    intro c hc
    rw [List.mem_singleton] at hc
    rw [hc]

theorem faceUp_drop_of_head (sp : List Card) (k : Nat) (card : Card) (h : faceUpRun sp)
    (hk : sp[k]? = some card) (hup : card.faceUp = true) : ∀ c ∈ sp.drop k, c.faceUp = true := by
  have hlt : k < sp.length := getElem?_lt hk
  have hcard : sp[k] = card := by
    rw [List.getElem?_eq_getElem hlt] at hk
    exact Option.some.inj hk
  have hd := faceUpRun_drop k sp h
  rw [List.drop_eq_getElem_cons hlt, hcard] at hd ⊢
  intro c hc
  rcases List.mem_cons.mp hc with rfl | hc
  · exact hup
  · exact (List.pairwise_cons.mp hd).1 c hc hup

theorem mem_of_getElem?_eq_some {α : Type} {l : List α} {i : Nat} {a : α} (h : l[i]? = some a) :
    a ∈ l :=
  List.mem_iff_getElem?.mpr ⟨i, h⟩

theorem tableauRuns_set (t : List (List Card)) (i : Nat) (x : List Card) (ht : tableauRuns t)
    (hx : faceUpRun x) : tableauRuns (t.set i x) := by
  intro pile hp
  rcases List.mem_or_eq_of_mem_set hp with h | rfl
  · exact ht pile h
  · exact hx

theorem mem_revealTop (p : List Card) (c : Card) (hc : c ∈ p) (hup : c.faceUp = true) :
    c ∈ revealTop p := by
  rcases List.eq_nil_or_concat p with rfl | ⟨q, d, rfl⟩
  · exact hc
  · rw [List.concat_eq_append] at hc
    rw [List.concat_eq_append, revealTop_concat]
    rcases List.mem_append.mp hc with h | h
    · exact List.mem_append_left _ h
    · rw [List.mem_singleton] at h
      subst h
      apply List.mem_append_right
      rw [List.mem_singleton]
      obtain ⟨cs, cr, cf⟩ := c
      simp only at hup
      rw [hup]

theorem mem_flatten_of_getElem? (t : List (List Card)) (j : Nat) (pile : List Card) (c : Card)
    (hj : t[j]? = some pile) (hc : c ∈ pile) : c ∈ t.flatten :=
  List.mem_flatten.mpr ⟨pile, mem_of_getElem?_eq_some hj, hc⟩

theorem exists_getElem?_of_mem_flatten (t : List (List Card)) (c : Card) (hc : c ∈ t.flatten) :
    ∃ (j : Nat) (pile : List Card), t[j]? = some pile ∧ c ∈ pile := by
  obtain ⟨pile, hp, hcp⟩ := List.mem_flatten.mp hc
  obtain ⟨j, hj⟩ := List.mem_iff_getElem?.mp hp
  exact ⟨j, pile, hj, hcp⟩

/-- A card stays in the tableau when one pile is replaced by a pile that holds it, or when it
lies in another pile. -/
theorem mem_flatten_set (t : List (List Card)) (i : Nat) (old x : List Card) (c : Card)
    (hi : t[i]? = some old) (hc : c ∈ t.flatten) (hx : c ∈ old → c ∈ x) :
    c ∈ (t.set i x).flatten := by
  obtain ⟨j, pile, hj, hcp⟩ := exists_getElem?_of_mem_flatten t c hc
  by_cases hij : i = j
  · subst hij
    rw [hi] at hj
    cases hj
    exact mem_flatten_of_getElem? _ i x c (getElem?_set_self_of _ hi) (hx hcp)
  · exact mem_flatten_of_getElem? _ j pile c (by rw [getElem?_set_other _ _ hij]; exact hj) hcp

theorem handleTableauDrop_runs (s s' : State) (src k tgt : Nat) (ht : tableauRuns s.tableau)
    (h : handleTableauDrop s src k tgt = some s')
    (hup : ∀ sp card, s.tableau[src]? = some sp → sp[k]? = some card → card.faceUp = true) :
    tableauRuns s'.tableau := by
  rcases handleTableauDrop_shape s s' src k tgt h with rfl | ⟨sp, tp, _, hsp, htp, hk, rfl⟩
  · exact ht
  · have hsp' : faceUpRun sp := ht sp (mem_of_getElem?_eq_some hsp)
    have htp' : faceUpRun tp := ht tp (mem_of_getElem?_eq_some htp)
    have hcard : sp[k]? = some sp[k] := List.getElem?_eq_getElem hk
    apply tableauRuns_set
    · exact tableauRuns_set _ _ _ ht (faceUpRun_revealTop _ (faceUpRun_take k sp hsp'))
    · exact faceUpRun_append_up tp _ htp'
        (faceUp_drop_of_head sp k _ hsp' hcard (hup sp _ hsp hcard))

theorem handleWasteDrop_runs (s s' : State) (tgt : Nat) (ht : tableauRuns s.tableau)
    (h : handleWasteDrop s tgt = some s')
    (hup : ∀ card, s.waste.getLast? = some card → card.faceUp = true) :
    tableauRuns s'.tableau := by
  rcases handleWasteDrop_shape s s' tgt h with rfl | ⟨card, tp, hw, htp, rfl⟩
  · exact ht
  · apply tableauRuns_set _ _ _ ht
    refine faceUpRun_append_up tp _ (ht tp (mem_of_getElem?_eq_some htp)) ?_
    intro c hc
    rw [List.mem_singleton] at hc
    rw [hc]
    exact hup card hw

theorem handleFoundationDrop_runs (s s' : State) (suit : Suit) (ht : tableauRuns s.tableau)
    (h : handleFoundationDrop s suit = some s') : tableauRuns s'.tableau := by
  rcases handleFoundationDrop_shape s s' suit h with
    rfl | ⟨card, _, _, _, rfl⟩ | ⟨p, k, pile, card, hp, _, _, _, _, rfl⟩
  · exact ht
  · exact ht
  · exact tableauRuns_set _ _ _ ht
      (faceUpRun_revealTop _ (faceUpRun_take k pile (ht pile (mem_of_getElem?_eq_some hp))))

theorem handleFoundationToTableauDrop_runs (s s' : State) (suit : Suit) (tgt : Nat)
    (ht : tableauRuns s.tableau) (h : handleFoundationToTableauDrop s suit tgt = some s') :
    tableauRuns s'.tableau := by
  rcases handleFoundationToTableauDrop_shape s s' suit tgt h with rfl | ⟨card, tp, _, htp, rfl⟩
  · exact ht
  · apply tableauRuns_set _ _ _ ht
    refine faceUpRun_append_up tp _ (ht tp (mem_of_getElem?_eq_some htp)) ?_
    intro c hc
    rw [List.mem_singleton] at hc
    rw [hc]

theorem handleTableauDrop_keeps_up (s s' : State) (src k tgt : Nat)
    (h : handleTableauDrop s src k tgt = some s') (c : Card) (hc : c ∈ s.tableau.flatten)
    (hup : c.faceUp = true) : c ∈ s'.tableau.flatten := by
  rcases handleTableauDrop_shape s s' src k tgt h with rfl | ⟨sp, tp, hne, hsp, htp, _, rfl⟩
  · exact hc
  · show c ∈ ((s.tableau.set src (revealTop (sp.take k))).set tgt (tp ++ sp.drop k)).flatten
    obtain ⟨j, pile, hj, hcp⟩ := exists_getElem?_of_mem_flatten s.tableau c hc
    have htgt : ((s.tableau.set src (revealTop (sp.take k))).set tgt (tp ++ sp.drop k))[tgt]? =
        some (tp ++ sp.drop k) := by
      apply getElem?_set_self_of (a := tp)
      rw [getElem?_set_other _ _ hne]
      exact htp
    by_cases hjs : j = src
    · subst hjs
      rw [hsp] at hj
      cases hj
      rw [← List.take_append_drop k sp] at hcp
      rcases List.mem_append.mp hcp with hct | hcd
      · refine mem_flatten_of_getElem? _ j (revealTop (sp.take k)) c ?_
          (mem_revealTop _ c hct hup)
        rw [getElem?_set_other _ _ (Ne.symm hne)]
        exact getElem?_set_self_of _ hsp
      · exact mem_flatten_of_getElem? _ tgt _ c htgt (List.mem_append_right _ hcd)
    · by_cases hjt : j = tgt
      · subst hjt
        rw [htp] at hj
        cases hj
        exact mem_flatten_of_getElem? _ j _ c htgt (List.mem_append_left _ hcp)
      · refine mem_flatten_of_getElem? _ j pile c ?_ hcp
        rw [getElem?_set_other _ _ (Ne.symm hjt), getElem?_set_other _ _ (Ne.symm hjs)]
        exact hj

theorem handleWasteDrop_keeps (s s' : State) (tgt : Nat) (h : handleWasteDrop s tgt = some s')
    (c : Card) (hc : c ∈ s.tableau.flatten) : c ∈ s'.tableau.flatten := by
  rcases handleWasteDrop_shape s s' tgt h with rfl | ⟨card, tp, _, htp, rfl⟩
  · exact hc
  · exact mem_flatten_set _ _ tp _ c htp hc (fun hm => List.mem_append_left _ hm)

theorem handleFoundationToTableauDrop_keeps (s s' : State) (suit : Suit) (tgt : Nat)
    (h : handleFoundationToTableauDrop s suit tgt = some s') (c : Card)
    (hc : c ∈ s.tableau.flatten) : c ∈ s'.tableau.flatten := by
  rcases handleFoundationToTableauDrop_shape s s' suit tgt h with rfl | ⟨card, tp, _, htp, rfl⟩
  · exact hc
  · exact mem_flatten_set _ _ tp _ c htp hc (fun hm => List.mem_append_left _ hm)

theorem handleFoundationDrop_keeps_up (s s' : State) (suit : Suit)
    (h : handleFoundationDrop s suit = some s') (c : Card) (hc : c ∈ s.tableau.flatten)
    (hup : c.faceUp = true) :
    c ∈ s'.tableau.flatten ∨ c ∈ s'.foundations.get suit := by
  rcases handleFoundationDrop_shape s s' suit h with
    rfl | ⟨card, _, _, _, rfl⟩ | ⟨p, k, pile, card, hp, hk, hlast, _, _, rfl⟩
  · exact Or.inl hc
  · exact Or.inl hc
  · by_cases hcc : c = card
    · right
      show c ∈ (s.foundations.put suit (s.foundations.get suit ++ [card])).get suit
      rw [Foundations.get_put_self, hcc]
      exact List.mem_append_right _ (List.mem_singleton_self _)
    · left
      refine mem_flatten_set _ _ pile _ c hp hc (fun hm => mem_revealTop _ c ?_ hup)
      have hl : pile.getLast? = some card := by
        rw [List.getLast?_eq_getElem?, ← hk]
        congr 1
        omega
      have hpile : pile = pile.take k ++ [card] := by
        have h1 := (List.dropLast_append_getLast? card hl).symm
        rw [List.dropLast_eq_take] at h1
        have h2 : pile.length - 1 = k := by omega
        rw [h2] at h1
        exact h1
      rw [hpile] at hm
      rcases List.mem_append.mp hm with h1 | h1
      · exact h1
      · exact absurd (List.mem_singleton.mp h1) hcc

/-- C18, as stated, fails: the piles of `exFaceDownDrag` and of `exFaceDownWaste` have their
face-up cards in one run at the top; `handleTableauDrop(0, 0, 1)` accepts the face-down 5 of
hearts (and the 4 of spades above it) on the 6 of spades, and `handleWasteDrop(0)` accepts the
face-down Queen of hearts on the King of spades, and each leaves a face-down card above a
face-up one. -/
theorem faceUp_run_counterexample :
    (tableauRuns exFaceDownDrag.tableau ∧
      (handleTableauDrop exFaceDownDrag 0 0 1).map State.tableau =
        some [[], [⟨Suit.spades, Rank.r6, true⟩, ⟨Suit.hearts, Rank.r5, false⟩,
                   ⟨Suit.spades, Rank.r4, true⟩]] ∧
      ¬ tableauRuns (step exFaceDownDrag (Move.tableauDrop 0 0 1)).tableau) ∧
    (tableauRuns exFaceDownWaste.tableau ∧
      (handleWasteDrop exFaceDownWaste 0).map State.tableau =
        some [[⟨Suit.spades, Rank.K, true⟩, ⟨Suit.hearts, Rank.Q, false⟩]] ∧
      ¬ tableauRuns (step exFaceDownWaste (Move.wasteDrop 0)).tableau) := by
  unfold tableauRuns faceUpRun
  decide

/-- C18, amended: when every pile of the tableau has its face-up cards in one run at the top,
the same is true after a request handled by `handleTableauDrop` whose dragged card
`sourcePile[sourceCardIdx]` is face-up, by `handleWasteDrop` when the top card of the waste is
face-up, by `handleFoundationDrop`, or by `handleFoundationToTableauDrop`; and after any of
these requests every card that was face-up in the tableau is still in the tableau face-up,
or is the card that went to the foundation. -/
theorem faceUp_run_preserved :
    (∀ (s : State) (src k tgt : Nat), tableauRuns s.tableau →
      (∀ sp card, s.tableau[src]? = some sp → sp[k]? = some card → card.faceUp = true) →
      tableauRuns (step s (Move.tableauDrop src k tgt)).tableau) ∧
    (∀ (s : State) (tgt : Nat), tableauRuns s.tableau →
      (∀ card, s.waste.getLast? = some card → card.faceUp = true) →
      tableauRuns (step s (Move.wasteDrop tgt)).tableau) ∧
    (∀ (s : State) (suit : Suit), tableauRuns s.tableau →
      tableauRuns (step s (Move.foundationDrop suit)).tableau) ∧
    (∀ (s : State) (suit : Suit) (tgt : Nat), tableauRuns s.tableau →
      tableauRuns (step s (Move.foundationToTableauDrop suit tgt)).tableau) ∧
    (∀ (s : State) (src k tgt : Nat) (c : Card), c ∈ s.tableau.flatten → c.faceUp = true →
      c ∈ (step s (Move.tableauDrop src k tgt)).tableau.flatten) ∧
    (∀ (s : State) (tgt : Nat) (c : Card), c ∈ s.tableau.flatten → c.faceUp = true →
      c ∈ (step s (Move.wasteDrop tgt)).tableau.flatten) ∧
    (∀ (s : State) (suit : Suit) (c : Card), c ∈ s.tableau.flatten → c.faceUp = true →
      c ∈ (step s (Move.foundationDrop suit)).tableau.flatten ∨
        c ∈ (step s (Move.foundationDrop suit)).foundations.get suit) ∧
    (∀ (s : State) (suit : Suit) (tgt : Nat) (c : Card), c ∈ s.tableau.flatten →
      c.faceUp = true →
      c ∈ (step s (Move.foundationToTableauDrop suit tgt)).tableau.flatten) := by
  refine ⟨?_, ?_, ?_, ?_, ?_, ?_, ?_, ?_⟩
  · intro s src k tgt ht hup
    simp only [step]
    cases h : handleTableauDrop s src k tgt with
    | none => exact ht
    | some s' => exact handleTableauDrop_runs s s' src k tgt ht h hup
  · intro s tgt ht hup
    simp only [step]
    cases h : handleWasteDrop s tgt with
    | none => exact ht
    | some s' => exact handleWasteDrop_runs s s' tgt ht h hup
  · intro s suit ht
    simp only [step]
    cases h : handleFoundationDrop s suit with
    | none => exact ht
    | some s' => exact handleFoundationDrop_runs s s' suit ht h
  · intro s suit tgt ht
    simp only [step]
    cases h : handleFoundationToTableauDrop s suit tgt with
    | none => exact ht
    | some s' => exact handleFoundationToTableauDrop_runs s s' suit tgt ht h
  · intro s src k tgt c hc hup
    simp only [step]
    cases h : handleTableauDrop s src k tgt with
    | none => exact hc
    | some s' => exact handleTableauDrop_keeps_up s s' src k tgt h c hc hup
  · intro s tgt c hc _
    simp only [step]
    cases h : handleWasteDrop s tgt with
    | none => exact hc
    | some s' => exact handleWasteDrop_keeps s s' tgt h c hc
  · intro s suit c hc hup
    simp only [step]
    cases h : handleFoundationDrop s suit with
    | none => exact Or.inl hc
    | some s' => exact handleFoundationDrop_keeps_up s s' suit h c hc hup
  · intro s suit tgt c hc _
    simp only [step]
    cases h : handleFoundationToTableauDrop s suit tgt with
    | none => exact hc
    | some s' => exact handleFoundationToTableauDrop_keeps s s' suit tgt h c hc

/-- The face-up 7 of clubs of `exTableau` dragged onto the 8 of diamonds, and the face-up
Queen of hearts of `exWasteQueen` dropped on the King of spades. -/
theorem faceUp_run_preserved_witness :
    (tableauRuns exTableau.tableau ∧
      (∀ sp card, exTableau.tableau[0]? = some sp → sp[1]? = some card →
        card.faceUp = true) ∧
      tableauRuns (step exTableau (Move.tableauDrop 0 1 1)).tableau) ∧
    (tableauRuns exWasteQueen.tableau ∧
      (∀ card, exWasteQueen.waste.getLast? = some card → card.faceUp = true) ∧
      tableauRuns (step exWasteQueen (Move.wasteDrop 1)).tableau) := by
  have h1 : tableauRuns exTableau.tableau := by unfold tableauRuns faceUpRun; decide
  have h2 : ∀ sp card, exTableau.tableau[0]? = some sp → sp[1]? = some card →
      card.faceUp = true := by
    intro sp card hsp hcard
    have e1 : sp = [⟨Suit.hearts, Rank.r5, false⟩, ⟨Suit.clubs, Rank.r7, true⟩] :=
      (Option.some.inj hsp).symm
    subst e1
    have e2 : card = ⟨Suit.clubs, Rank.r7, true⟩ := (Option.some.inj hcard).symm
    rw [e2]
  have h3 : tableauRuns exWasteQueen.tableau := by unfold tableauRuns faceUpRun; decide
  have h4 : ∀ card, exWasteQueen.waste.getLast? = some card → card.faceUp = true := by
    intro card hcard
    have e : card = ⟨Suit.hearts, Rank.Q, true⟩ := (Option.some.inj hcard).symm
    rw [e]
  exact ⟨⟨h1, h2, faceUp_run_preserved.1 exTableau 0 1 1 h1 h2⟩,
    ⟨h3, h4, faceUp_run_preserved.2.1 exWasteQueen 1 h3 h4⟩⟩

/-! ## Requests that cannot throw -/

/-- With the target pile in the tableau, and for a tableau source the card index inside the
source pile, every handler returns a state. -/
theorem handlers_return :
    (∀ (s : State) (src k tgt : Nat) (sp tp : List Card) (card : Card),
      s.tableau[src]? = some sp → s.tableau[tgt]? = some tp → sp[k]? = some card →
      (handleTableauDrop s src k tgt).isSome = true) ∧
    (∀ (s : State) (tgt : Nat) (tp : List Card),
      s.tableau[tgt]? = some tp → (handleWasteDrop s tgt).isSome = true) ∧
    (∀ (s : State) (suit : Suit) (p k : Nat) (pile : List Card) (card : Card),
      s.selection = some (Selection.tableau p k) → s.tableau[p]? = some pile →
      pile[k]? = some card → (handleFoundationDrop s suit).isSome = true) ∧
    (∀ (s : State) (suit : Suit),
      (∀ p k, s.selection ≠ some (Selection.tableau p k)) →
      (handleFoundationDrop s suit).isSome = true) ∧
    (∀ (s : State) (suit : Suit) (tgt : Nat) (tp : List Card),
      s.tableau[tgt]? = some tp → (handleFoundationToTableauDrop s suit tgt).isSome = true) := by
  refine ⟨?_, ?_, ?_, ?_, ?_⟩
  · intro s src k tgt sp tp card hsp htp hk
    by_cases hne : src = tgt
    · rw [hne, handleTableauDrop_same]; rfl
    · rw [handleTableauDrop_eq s src k tgt sp tp card hne hsp htp hk]; rfl
  · intro s tgt tp htp
    cases hw : s.waste.getLast? with
    | none => rw [handleWasteDrop_nil s tgt (List.getLast?_eq_none_iff.mp hw)]; rfl
    | some card => rw [handleWasteDrop_eq s tgt tp card hw htp]; rfl
  · intro s suit p k pile card hsel hp hk
    rw [handleFoundationDrop_tableau_eq s suit p k pile card hsel hp hk]; rfl
  · intro s suit hsel
    cases h : s.selection with
    | none => simp [handleFoundationDrop, h]
    | some sel =>
      cases sel with
      | waste =>
        cases hw : s.waste.getLast? with
        | none => simp [handleFoundationDrop, h, hw]
        | some card => rw [handleFoundationDrop_waste_eq s suit card h hw]; rfl
      | tableau p k => exact absurd h (hsel p k)
      | foundation t => simp [handleFoundationDrop, h]
  · intro s suit tgt tp htp
    cases hf : (s.foundations.get suit).getLast? with
    | none =>
      rw [handleFoundationToTableauDrop_nil s suit tgt (List.getLast?_eq_none_iff.mp hf)]; rfl
    | some card => rw [handleFoundationToTableauDrop_eq s suit tgt tp card hf htp]; rfl

end Klondike
